import Mathlib

/-!
Verification of the GPBFT core of the f3sim repository.

The Go sources `gpbft/gpbft.go`, `gpbft/participant.go`, `gpbft/api.go` and the
VRF helpers are embedded shallowly:

* machine integers (`uint64`, `ActorID`) become `Nat`; `*big.Int` storage power
  becomes `Nat` (power values are non-negative everywhere in the protocol);
* byte strings become `List Nat`;
* Go maps become association lists (`List (κ × ν)`); Go map iteration order is
  unspecified, the association-list order is one admissible refinement;
* fallible code returns `GoRes α`, which distinguishes Go `error` returns
  (`.err`) from Go panics (`.panic`);
* stateful methods become functions in the state monad `GoM σ α`, which also
  collects the external effects (broadcasts, alarms, committee fetches) and
  keeps the mutated state alongside `.err`/`.panic` results, as Go does;
* types that are referenced by the provided sources but whose defining file is
  not among them (`TipSet`, `ECChain`, `PowerTable`, `isSpammable`, the
  transport-level validator) are modelled from the spec; each such definition
  says so in its doc comment.
-/

/-! ### Basic aliases (gpbft/gpbft.go, gpbft/api.go) -/

/-- Byte strings (`[]byte`) are modelled as lists of naturals. -/
abbrev Bytes := List Nat

/-- `type ActorID uint64`. -/
abbrev ActorID := Nat

/-- `type NetworkName string`, used only as an opaque byte string. -/
abbrev NetworkName := Bytes

/-- Storage power (`*big.Int`); non-negative throughout the protocol. -/
abbrev StoragePower := Nat

/-- `type Phase uint8`.  Kept as `Nat` so that the validator's
"unknown vote step" branch stays representable, as it is for a Go `uint8`. -/
abbrev Phase := Nat

def INITIAL_PHASE : Phase := 0
def QUALITY_PHASE : Phase := 1
def CONVERGE_PHASE : Phase := 2
def PREPARE_PHASE : Phase := 3
def COMMIT_PHASE : Phase := 4
def DECIDE_PHASE : Phase := 5
def TERMINATED_PHASE : Phase := 6

def CHAIN_MAX_LEN : Nat := 100

/-! ### Quorum predicates (gpbft.go lines 1195-1211) -/

/-- `hasStrongQuorum`: computes `part > (2·total) div 3` with integer floor
division, exactly as the Go code does with `big.Int` `Mul`/`Div`/`Cmp`. -/
def hasStrongQuorum (part total : StoragePower) : Bool :=
  part > 2 * total / 3

/-- `hasWeakQuorum`: `part > total div 3`. -/
def hasWeakQuorum (part total : StoragePower) : Bool :=
  part > total / 3

/-- `atOrAfter`: `lhs.After(rhs) || lhs.Equal(rhs)` on the `Nat` time model. -/
def atOrAfter (lhs rhs : Nat) : Bool :=
  lhs ≥ rhs

/-! ### Association-list helpers (the embedding of Go maps) -/

/-- Go map read `m[k]` (as `v, ok := m[k]`). -/
def lookupA {κ ν : Type} [DecidableEq κ] : List (κ × ν) → κ → Option ν
  | [], _ => none
  | (k0, v0) :: t, k => if k0 = k then some v0 else lookupA t k

/-- Go map write `m[k] = v`: replaces the binding in place, or appends it. -/
def updateA {κ ν : Type} [DecidableEq κ] : List (κ × ν) → κ → ν → List (κ × ν)
  | [], k, v => [(k, v)]
  | (k0, v0) :: t, k, v => if k0 = k then (k, v) :: t else (k0, v0) :: updateA t k v

/-- Go map delete `delete(m, k)`. -/
def eraseA {κ ν : Type} [DecidableEq κ] (l : List (κ × ν)) (k : κ) : List (κ × ν) :=
  l.filter (fun p => ¬ p.1 = k)

/-! ### Tipsets and EC chains

Modelled from the spec: the file defining `TipSet`/`ECChain` is not among the
provided sources (only its callers are).  Spec §3 gives the tipset attributes
(epoch, opaque key bytes, power-table commitment bytes) and §4.2 the chain
operations. -/

/-- Modelled from the spec: §3 "Tipset: epoch ≥ 0; opaque key (bytes);
power-table commitment (bytes)". -/
structure TipSet where
  epoch : Int
  key : Bytes
  powerTableCommit : Bytes
deriving Repr, DecidableEq

/-- An EC chain: ordered sequence of tipsets; the empty chain is "bottom". -/
abbrev ECChain := List TipSet

/-- The stable fingerprint of a chain, used as a map key.  Modelled from the
spec: §4.2 requires `key()` to be "deterministic and collision-free for
well-formed chains (concatenation of length-prefixed tipset keys suffices)";
the list of the tipsets' keys is such a collision-free encoding. -/
abbrev ChainKey := List Bytes

namespace ECChain

/-- Modelled from the spec: a bottom value has length 0. -/
def IsZero (c : ECChain) : Bool := c.isEmpty

/-- Modelled from the spec: the base is the first tipset (absent for bottom). -/
def Base (c : ECChain) : Option TipSet := c.head?

/-- Modelled from the spec: the chain containing only the base. -/
def BaseChain (c : ECChain) : ECChain := c.take 1

/-- Modelled from the spec: `prefix(k)` is the first `k+1` tipsets. -/
def Prefix (c : ECChain) (k : Nat) : ECChain := c.take (k + 1)

/-- Modelled from the spec: `suffix()` is everything after the base. -/
def Suffix (c : ECChain) : ECChain := c.drop 1

/-- Modelled from the spec: whether `t` is the base of `c`. -/
def HasBase (c : ECChain) (t : TipSet) : Bool :=
  match c.head? with
  | some b => b = t
  | none => false

/-- Modelled from the spec: whether `other` is a (not necessarily proper)
prefix of `c`. -/
def HasPrefix (c other : ECChain) : Bool := other.isPrefixOf c

/-- Modelled from the spec: chain equality. -/
def Eq (a b : ECChain) : Bool := a = b

/-- Modelled from the spec: `key()`, see `ChainKey`. -/
def Key (c : ECChain) : ChainKey := c.map (fun t => t.key)

/-- Modelled from the spec: §4.2 "`validate()` fails when epochs are not
strictly increasing, when length exceeds `CHAIN_MAX_LEN`, or when any tipset
key is empty". -/
def epochsOrdered : ECChain → Bool
  | [] => true
  | [_] => true
  | a :: b :: rest => (a.epoch < b.epoch) && epochsOrdered (b :: rest)

/-- Modelled from the spec: the adjacent-tipset epoch check of `validate()`
(each epoch strictly above its predecessor's). -/
def Validate (c : ECChain) : Except String Unit :=
  if c.length > CHAIN_MAX_LEN then .error "chain too long"
  else if ¬ (c.all (fun t => ¬ t.key.isEmpty)) then .error "empty tipset key"
  else if ¬ (epochsOrdered c = true) then
    .error "chain epochs not in order"
  else .ok ()

end ECChain

/-! ### Power table

Modelled from the spec: the file defining `PowerTable` is not among the
provided sources.  Spec §4.1: ordered immutable entries (descending power,
ties by ascending id), `Total` the sum of powers, `Lookup` an id→index map. -/

/-- A power-table entry: actor id, positive power, signing public key. -/
structure PowerEntry where
  ID : ActorID
  Power : StoragePower
  PubKey : Bytes
deriving Repr, DecidableEq

/-- Modelled from the spec: §4.1 and §3 "Power table: ordered entries; total
power; id→index lookup", with `Total = Σ entries.power`. -/
structure PowerTable where
  Entries : List PowerEntry
  Total : StoragePower
  Lookup : List (ActorID × Nat)
deriving Repr, DecidableEq

/-- The entry-ordering rule of spec §4.1: descending power, ties broken by
ascending id. -/
def powerEntryLE (a b : PowerEntry) : Prop :=
  b.Power < a.Power ∨ (a.Power = b.Power ∧ a.ID ≤ b.ID)

instance : DecidableRel powerEntryLE := fun a b => by
  unfold powerEntryLE; infer_instance

/-- Adjacent-entry ordering check used by `Validate`: each entry at or above
its successor under the spec ordering. -/
def entriesOrdered : List PowerEntry → Bool
  | [] => true
  | [_] => true
  | a :: b :: rest => decide (powerEntryLE a b) && entriesOrdered (b :: rest)

namespace PowerTable

/-- Modelled from the spec: `get(id)` returns the power and public key, or
nothing when the id is absent ("callers treat as not a participant"). -/
def Get (pt : PowerTable) (id : ActorID) : Option (StoragePower × Bytes) :=
  match lookupA pt.Lookup id with
  | some i =>
    match pt.Entries[i]? with
    | some e => some (e.Power, e.PubKey)
    | none => none
  | none => none

/-- Modelled from the spec: §4.1 "validate a candidate power table (positive
powers, unique ids, canonical order)" together with the §3 invariant
`Total = Σ entries.power` and the id→index lookup being consistent. -/
def Validate (pt : PowerTable) : Except String Unit :=
  if ¬ (pt.Entries.all (fun e => 0 < e.Power)) then .error "non-positive power"
  else if ¬ ((pt.Entries.map (fun e => e.ID)).Nodup) then .error "duplicate id"
  else if ¬ (entriesOrdered pt.Entries = true) then .error "entries out of order"
  else if ¬ (pt.Total = (pt.Entries.map (fun e => e.Power)).sum) then
    .error "total power mismatch"
  else if ¬ (pt.Lookup.length = pt.Entries.length ∧
      ∀ i < pt.Entries.length, lookupA pt.Lookup ((pt.Entries.get? i).elim 0 (fun e => e.ID)) = some i) then
    .error "lookup inconsistent"
  else .ok ()

end PowerTable

/-! ### Messages (gpbft.go lines 58-114) -/

/-- Fields of the message that make up the signature payload. -/
structure Payload where
  Instance : Nat
  Round : Nat
  Step : Phase
  Value : ECChain
deriving Repr, DecidableEq

/-- A justification: vote payload, signer indices into the base power table
(the Go bitfield is modelled as its ascending list of set bits), aggregate
signature. -/
structure Justification where
  Vote : Payload
  Signers : List Nat
  Signature : Bytes
deriving Repr, DecidableEq

/-- A message in the Granite protocol. -/
structure GMessage where
  Sender : ActorID
  Vote : Payload
  Signature : Bytes
  Ticket : Bytes
  Justification : Option Justification
deriving Repr, DecidableEq

/-- `Payload.Eq` (gpbft.go line 93). -/
def Payload.Eq (p other : Payload) : Bool :=
  p.Instance = other.Instance && p.Round = other.Round && p.Step = other.Step &&
    ECChain.Eq p.Value other.Value

/-- Big-endian byte serialisation of `n` on `w` bytes (`binary.BigEndian`). -/
def beBytes (w n : Nat) : Bytes :=
  (List.range w).map (fun i => n / 256 ^ (w - 1 - i) % 256)

/-- The bytes of `DOMAIN_SEPARATION_TAG = "GPBFT"`. -/
def gpbftTag : Bytes := [71, 80, 66, 70, 84]

/-- The bytes of `DOMAIN_SEPARATION_TAG_VRF = "VRF"`. -/
def vrfTag : Bytes := [86, 82, 70]

/-- The byte 0x3a, `":"`. -/
def colonByte : Bytes := [58]

/-- `Payload.MarshalForSigning` (gpbft.go line 100): tag, network name,
instance, round and step, then each tipset key length-prefixed (the spec §6
identifies the per-tipset bytes written by the Go code as the tipset keys). -/
def Payload.MarshalForSigning (p : Payload) (nn : NetworkName) : Bytes :=
  gpbftTag ++ colonByte ++ nn ++ colonByte ++
    beBytes 8 p.Instance ++ beBytes 8 p.Round ++ beBytes 1 p.Step ++
    (p.Value.map (fun t => beBytes 4 t.key.length ++ t.key)).flatten

/-- VRF signature input (vrf.go `vrfSerializeSigInput`). -/
def vrfSerializeSigInput (beacon : Bytes) (instanceID round : Nat) (nn : NetworkName) : Bytes :=
  vrfTag ++ colonByte ++ nn ++ colonByte ++ beacon ++ colonByte ++
    beBytes 8 instanceID ++ beBytes 8 round

/-! ### Results, effects and the Go state monad -/

/-- Go error values: the sentinel errors of `errors.go` as distinguished
constructors, free-form errors as `str`, and the two `fmt.Errorf` wrapping
shapes (`"...: %w"` and `"%w: %w"`) preserved so that `errors.Is` tests are
expressible.  `panicErr` is the `PanicError` value built by the participant
recover handlers. -/
inductive GErr : Type where
  | tooOld : GErr
  | wrongBase : GErr
  | noCommittee : GErr
  | invalid : GErr
  | internalErr : GErr
  | panicErr : String → GErr
  | str : String → GErr
  | wrap : String → GErr → GErr
  | wrapPair : GErr → GErr → GErr
deriving Repr, DecidableEq

/-- `errors.Is`: whether the error `e` is, or wraps, the target `t`. -/
def GErr.is : GErr → GErr → Bool
  | .wrap m inner, t => decide (GErr.wrap m inner = t) || GErr.is inner t
  | .wrapPair a b, t => decide (GErr.wrapPair a b = t) || GErr.is a t || GErr.is b t
  | e, t => decide (e = t)

/-- The result of a Go call: a value, a returned `error`, or a panic. -/
inductive GoRes (α : Type) : Type where
  | ok : α → GoRes α
  | err : GErr → GoRes α
  | panic : String → GoRes α
deriving Repr, DecidableEq

/-- The external effects a call emits: broadcast messages, alarms set, and
committee fetches from the host. -/
structure Outputs where
  broadcasts : List GMessage
  alarms : List Nat
  committeeFetches : List Nat
deriving Repr, DecidableEq

def Outputs.empty : Outputs := ⟨[], [], []⟩

def Outputs.append (a b : Outputs) : Outputs :=
  ⟨a.broadcasts ++ b.broadcasts, a.alarms ++ b.alarms,
    a.committeeFetches ++ b.committeeFetches⟩

/-- The state monad of the embedding: a Go method body mutating state `σ`.
The mutated state and the effects emitted so far are kept even when the
result is an error or a panic, as they are in Go. -/
def GoM (σ α : Type) := σ → σ × Outputs × GoRes α

def GoM.pure {σ α : Type} (a : α) : GoM σ α := fun s => (s, Outputs.empty, .ok a)

def GoM.bind {σ α β : Type} (x : GoM σ α) (f : α → GoM σ β) : GoM σ β := fun s =>
  match x s with
  | (s1, o1, .ok a) =>
    match f a s1 with
    | (s2, o2, r) => (s2, o1.append o2, r)
  | (s1, o1, .err e) => (s1, o1, .err e)
  | (s1, o1, .panic msg) => (s1, o1, .panic msg)

instance : Monad (GoM σ) where
  pure := GoM.pure
  bind := GoM.bind

/-- Read the current state. -/
def getS {σ : Type} : GoM σ σ := fun s => (s, Outputs.empty, .ok s)

/-- Replace the current state. -/
def setS {σ : Type} (s1 : σ) : GoM σ Unit := fun _ => (s1, Outputs.empty, .ok ())

/-- Mutate the current state. -/
def modS {σ : Type} (f : σ → σ) : GoM σ Unit := fun s => (f s, Outputs.empty, .ok ())

/-- Return a Go `error`. -/
def goErr {σ α : Type} (e : GErr) : GoM σ α := fun s => (s, Outputs.empty, .err e)

/-- Raise a Go panic. -/
def goPanic {σ α : Type} (msg : String) : GoM σ α := fun s => (s, Outputs.empty, .panic msg)

/-- Emit effects. -/
def emit {σ : Type} (o : Outputs) : GoM σ Unit := fun s => (s, o, .ok ())

/-- Lift a pure Go result into the monad. -/
def liftR {σ α : Type} (r : GoRes α) : GoM σ α := fun s => (s, Outputs.empty, r)

/-- Run a sub-object method on a component of the state. -/
def GoM.zoom {σ τ α : Type} (g : σ → τ) (st : σ → τ → σ) (m : GoM τ α) : GoM σ α :=
  fun s =>
    match m (g s) with
    | (t1, o, r) => (st s t1, o, r)

/-! ### Incremental quorum-calculation helper (gpbft.go lines 852-1097) -/

/-- A chain value and the total power supporting it (gpbft.go line 872;
Go names the struct `chainSupport`, capitalised here so that the name does not
collide with the `quorumState.chainSupport` field accessor). -/
structure ChainSupport where
  chain : ECChain
  power : StoragePower
  signatures : List (ActorID × Option Bytes)
  hasStrongQuorum : Bool
  hasWeakQuorum : Bool
deriving Repr, DecidableEq

/-- Accumulates values from a collection of senders (gpbft.go line 858).
`signatures` values of `none` model stored Go `nil` signatures. -/
structure quorumState where
  senders : List ActorID
  sendersTotalPower : StoragePower
  chainSupport : List (ChainKey × ChainSupport)
  powerTable : PowerTable
  receivedJustification : List (ChainKey × Justification)
deriving Repr, DecidableEq

/-- `newQuorumState` (gpbft.go line 881). -/
def newQuorumState (powerTable : PowerTable) : quorumState :=
  { senders := [], sendersTotalPower := 0, chainSupport := [],
    powerTable := powerTable, receivedJustification := [] }

/-- `receiveSender` (gpbft.go line 919): adds the sender's power to the total
the first time a value is received from them.  The Go version returns a `nil`
power for an already-seen sender (modelled by `0`, which every caller
ignores), and panics on the `big.Int` addition when the sender is missing
from the power table. -/
def quorumState.receiveSender (sender : ActorID) : GoM quorumState (StoragePower × Bool) :=
  fun q =>
    if q.senders.contains sender then (q, Outputs.empty, .ok (0, false))
    else
      let q1 := { q with senders := q.senders ++ [sender] }
      match q1.powerTable.Get sender with
      | some (p, _) =>
        ({ q1 with sendersTotalPower := q1.sendersTotalPower + p },
          Outputs.empty, .ok (p, true))
      | none => (q1, Outputs.empty, .panic "nil sender power")

/-- `receiveInner` (gpbft.go line 930): records a chain from a sender. -/
def quorumState.receiveInner (sender : ActorID) (value : ECChain) (power : StoragePower)
    (signature : Option Bytes) : GoM quorumState Unit := fun q =>
  let key := ECChain.Key value
  let candidate : ChainSupport :=
    match lookupA q.chainSupport key with
    | some c => c
    | none =>
      { chain := value, power := 0, signatures := [],
        hasStrongQuorum := false, hasWeakQuorum := false }
  let candidate := { candidate with power := candidate.power + power }
  match lookupA candidate.signatures sender with
  | some (some _) => (q, Outputs.empty, .panic "duplicate message should have been dropped")
  | _ =>
    let candidate := { candidate with
      signatures := updateA candidate.signatures sender signature }
    let candidate := { candidate with
      hasStrongQuorum := hasStrongQuorum candidate.power q.powerTable.Total,
      hasWeakQuorum := hasWeakQuorum candidate.power q.powerTable.Total }
    ({ q with chainSupport := updateA q.chainSupport key candidate }, Outputs.empty, .ok ())

/-- `Receive` (gpbft.go line 893): receives a chain from a sender; ignores any
subsequent value from a sender from which a value has already been received. -/
def quorumState.Receive (sender : ActorID) (value : ECChain) (signature : Bytes) :
    GoM quorumState Unit := fun q =>
  match quorumState.receiveSender sender q with
  | (q1, o1, .ok (power, true)) =>
    match quorumState.receiveInner sender value power (some signature) q1 with
    | (q2, o2, r) => (q2, o1.append o2, r)
  | (q1, o1, .ok (_, false)) => (q1, o1, .ok ())
  | (q1, o1, .err e) => (q1, o1, .err e)
  | (q1, o1, .panic msg) => (q1, o1, .panic msg)

/-- The loop body of `ReceiveEachPrefix`: one `receiveInner` call per index of
`values.Suffix()`, in order. -/
def quorumState.receiveEachLoop (sender : ActorID) (values : ECChain) (power : StoragePower) :
    List Nat → GoM quorumState Unit
  | [] => fun q => (q, Outputs.empty, .ok ())
  | j :: rest => fun q =>
    match quorumState.receiveInner sender (ECChain.Prefix values (j + 1)) power none q with
    | (q1, o1, .ok _) =>
      match quorumState.receiveEachLoop sender values power rest q1 with
      | (q2, o2, r) => (q2, o1.append o2, r)
    | (q1, o1, .err e) => (q1, o1, .err e)
    | (q1, o1, .panic msg) => (q1, o1, .panic msg)

/-- `ReceiveEachPrefix` (gpbft.go line 906): receives each `Prefix(j+1)` of the
chain, for `j` ranging over `values.Suffix()`, as a distinct value from a
sender, storing no signatures. -/
def quorumState.ReceiveEachPrefix (sender : ActorID) (values : ECChain) :
    GoM quorumState Unit := fun q =>
  match quorumState.receiveSender sender q with
  | (q1, o1, .ok (power, true)) =>
    match quorumState.receiveEachLoop sender values power
        (List.range (ECChain.Suffix values).length) q1 with
    | (q2, o2, r) => (q2, o1.append o2, r)
  | (q1, o1, .ok (_, false)) => (q1, o1, .ok ())
  | (q1, o1, .err e) => (q1, o1, .err e)
  | (q1, o1, .panic msg) => (q1, o1, .panic msg)

/-- `ReceiveJustification` (gpbft.go line 954): stores the first justification
received for a value; panics on a `nil` justification. -/
def quorumState.ReceiveJustification (value : ECChain) (justification : Option Justification) :
    GoM quorumState Unit := fun q =>
  match justification with
  | none => (q, Outputs.empty, .panic "nil justification")
  | some j =>
    let key := ECChain.Key value
    if (lookupA q.receivedJustification key).isSome then (q, Outputs.empty, .ok ())
    else ({ q with receivedJustification := updateA q.receivedJustification key j },
      Outputs.empty, .ok ())

/-- `ListAllValues` (gpbft.go line 967). -/
def quorumState.ListAllValues (q : quorumState) : List ECChain :=
  q.chainSupport.map (fun p => p.2.chain)

/-- `ReceivedFromStrongQuorum` (gpbft.go line 976). -/
def quorumState.ReceivedFromStrongQuorum (q : quorumState) : Bool :=
  hasStrongQuorum q.sendersTotalPower q.powerTable.Total

/-- `HasStrongQuorumFor` (gpbft.go line 981). -/
def quorumState.HasStrongQuorumFor (q : quorumState) (key : ChainKey) : Bool :=
  match lookupA q.chainSupport key with
  | some supportForChain => supportForChain.hasStrongQuorum
  | none => false

/-- `HasWeakQuorumFor` (gpbft.go line 1050). -/
def quorumState.HasWeakQuorumFor (q : quorumState) (key : ChainKey) : Bool :=
  match lookupA q.chainSupport key with
  | some cp => cp.hasWeakQuorum
  | none => false

/-- `QuorumResult` (gpbft.go line 986): signer indices into the power table in
increasing order, their public keys and their signatures. -/
structure QuorumResult where
  Signers : List Nat
  PubKeys : List Bytes
  Signatures : List (Option Bytes)
deriving Repr, DecidableEq

/-- `QuorumResult.Aggregate` (gpbft.go line 993), with the host's aggregation
function passed in; stored `nil` signatures are passed as empty byte strings. -/
def QuorumResult.Aggregate (q : QuorumResult)
    (aggregate : List Bytes → List Bytes → Except String Bytes) : Except String Bytes :=
  aggregate q.PubKeys (q.Signatures.map (fun s => s.getD []))

/-- `QuorumResult.SignersBitfield` (gpbft.go line 997): the bitfield is
modelled as the ascending list of signer indices, which is exactly what the
Go code feeds to the RLE+ bitfield constructor. -/
def QuorumResult.SignersBitfield (q : QuorumResult) : List Nat := q.Signers

/-- The accumulation loop of `FindStrongQuorumFor` (gpbft.go lines 1029-1044):
walk the sorted signer indices, accumulating power, keys and signatures, and
stop at the first prefix whose power is a strong quorum. -/
def fsqWalk (pt : PowerTable) (sigs : List (ActorID × Option Bytes)) :
    List Nat → List Nat → StoragePower → List Bytes → List (Option Bytes) →
      GoRes (Option QuorumResult)
  | [], _, _, _, _ => .ok none
  | idx :: rest, taken, accPower, pks, ss =>
    match pt.Entries[idx]? with
    | none => .panic "invalid signer index"
    | some entry =>
      let accPower := accPower + entry.Power
      let ss := ss ++ [(lookupA sigs entry.ID).getD none]
      let pks := pks ++ [entry.PubKey]
      let taken := taken ++ [idx]
      if hasStrongQuorum accPower pt.Total then
        .ok (some { Signers := taken, PubKeys := pks, Signatures := ss })
      else fsqWalk pt sigs rest taken accPower pks ss

/-- `FindStrongQuorumFor` (gpbft.go line 1009): if the chain has strong
quorum, map its supporters to power-table indices, sort them ascending and
accumulate until the threshold is crossed. -/
def quorumState.FindStrongQuorumFor (q : quorumState) (key : ChainKey) :
    GoRes (QuorumResult × Bool) :=
  match lookupA q.chainSupport key with
  | none => .ok (⟨[], [], []⟩, false)
  | some cs =>
    if ¬ cs.hasStrongQuorum then .ok (⟨[], [], []⟩, false)
    else
      let signers := List.insertionSort (fun a b : Nat => a ≤ b)
        (cs.signatures.map (fun p => (lookupA q.powerTable.Lookup p.1).getD 0))
      match fsqWalk q.powerTable cs.signatures signers [] 0 [] [] with
      | .ok (some qr) => .ok (qr, true)
      | .ok none => .ok (⟨[], [], []⟩, false)
      | .err e => .err e
      | .panic msg => .panic msg

/-- Chains ordered by descending length (the `sort.Slice` comparator of
`ListStrongQuorumValues`). -/
def chainLenGE (a b : ECChain) : Prop := b.length ≤ a.length

instance : DecidableRel chainLenGE := fun a b => by
  unfold chainLenGE; infer_instance

instance : IsTotal ECChain chainLenGE :=
  ⟨fun a b => (le_total b.length a.length).imp (fun h => h) (fun h => h)⟩

instance : IsTrans ECChain chainLenGE :=
  ⟨fun _ _ _ hab hbc => le_trans hbc hab⟩

/-- The duplicate-length check of `ListStrongQuorumValues` (gpbft.go lines
1071-1077), starting from `prevLength = 0`. -/
def lsqCheck : Nat → List ECChain → GoRes Unit
  | _, [] => .ok ()
  | prevLength, v :: rest =>
    if v.length = prevLength then .panic "multiple chains of equal length with strong quorum"
    else lsqCheck v.length rest

/-- `ListStrongQuorumValues` (gpbft.go line 1061): strong-quorum chains in
descending length order; panics when two of them share a length. -/
def quorumState.ListStrongQuorumValues (q : quorumState) : GoRes (List ECChain) :=
  let withQuorum := (q.chainSupport.filter (fun p => p.2.hasStrongQuorum)).map
    (fun p => p.2.chain)
  let sorted := List.insertionSort chainLenGE withQuorum
  match lsqCheck 0 sorted with
  | .ok _ => .ok sorted
  | .err e => .err e
  | .panic msg => .panic msg

/-- The accumulation loop of `FindStrongQuorumValue` (gpbft.go lines
1087-1095). -/
def fsqvLoop : Bool → ECChain → List (ChainKey × ChainSupport) → GoRes (ECChain × Bool)
  | found, qv, [] => .ok (qv, found)
  | found, qv, (_, cp) :: rest =>
    if cp.hasStrongQuorum then
      if found then .panic "multiple chains with strong quorum"
      else fsqvLoop true cp.chain rest
    else fsqvLoop found qv rest

/-- `FindStrongQuorumValue` (gpbft.go line 1086): the unique chain with strong
quorum, if any; panics when two chains have strong quorum at once. -/
def quorumState.FindStrongQuorumValue (q : quorumState) : GoRes (ECChain × Bool) :=
  fsqvLoop false [] q.chainSupport

/-! ### Association-list lemmas -/

theorem lookupA_updateA_self {κ ν : Type} [DecidableEq κ] (l : List (κ × ν)) (k : κ) (v : ν) :
    lookupA (updateA l k v) k = some v := by
  induction l with
  | nil => simp [lookupA, updateA]
  | cons hd tl ih =>
    obtain ⟨k0, v0⟩ := hd
    by_cases h : k0 = k
    · subst h; simp [lookupA, updateA]
    · simp [lookupA, updateA, h, ih]

theorem lookupA_updateA_ne {κ ν : Type} [DecidableEq κ] (l : List (κ × ν)) (k k2 : κ) (v : ν)
    (h : k2 ≠ k) : lookupA (updateA l k v) k2 = lookupA l k2 := by
  have hne : ¬ k = k2 := fun he => h he.symm
  induction l with
  | nil => simp [lookupA, updateA, hne]
  | cons hd tl ih =>
    obtain ⟨k0, v0⟩ := hd
    by_cases h0 : k0 = k
    · subst h0
      simp [lookupA, updateA, hne]
    · simp only [updateA, if_neg h0, lookupA, ih]

/-- The support power recorded for a chain key (0 when the key is absent). -/
def supportPower (q : quorumState) (key : ChainKey) : StoragePower :=
  match lookupA q.chainSupport key with
  | some cs => cs.power
  | none => 0

/-- The signature recorded for a sender under a chain key: `none` when the
key or the sender is absent, `some none` when a vote with a nil signature is
recorded, `some (some sig)` for a vote with a signature. -/
def supportSig (q : quorumState) (key : ChainKey) (s : ActorID) : Option (Option Bytes) :=
  match lookupA q.chainSupport key with
  | some cs => lookupA cs.signatures s
  | none => none


/-- The power of the power-table entry at index `i` (0 when out of range; the
Go code panics on an out-of-range index, which the walk lemmas exclude). -/
def powAt (pt : PowerTable) (i : Nat) : StoragePower :=
  match pt.Entries[i]? with
  | some e => e.Power
  | none => 0


/-! ### Host model (gpbft/api.go `Host`)

The host is an external collaborator: its operations are abstract function
fields.  `Verify`/`VerifyAggregate` return a `Bool` (Go: nil error or not);
`Sign`/`Aggregate` may fail. -/

structure HostModel where
  networkName : NetworkName
  now : Nat
  sign : Bytes → Bytes → Except String Bytes
  verify : Bytes → Bytes → Bytes → Bool
  aggregate : List Bytes → List Bytes → Except String Bytes
  verifyAggregate : Bytes → Bytes → List Bytes → Bool
  getChainForInstance : Nat → Except String ECChain
  getCommitteeForInstance : Nat → Except String (PowerTable × Bytes)
  receiveDecision : Option Justification → Nat

/-- `MakeTicket` (vrf.go): sign the VRF payload. -/
def MakeTicket (beacon : Bytes) (instanceID round : Nat) (source : Bytes)
    (host : HostModel) : Except String Bytes :=
  host.sign source (vrfSerializeSigInput beacon instanceID round host.networkName)

/-- `VerifyTicket` (vrf.go): verify the VRF payload signature. -/
def VerifyTicket (beacon : Bytes) (instanceID round : Nat) (source : Bytes)
    (host : HostModel) (ticket : Bytes) : Bool :=
  host.verify source (vrfSerializeSigInput beacon instanceID round host.networkName) ticket

/-! ### Message validator (gpbft.go lines 339-490)

The validator is embedded as `checkPre` (everything before the justification
block, gpbft.go lines 341-399) sequenced with `checkJust` (the justification
block, lines 401-487); `validateMessage` is their composition. -/

/-- The validation context: the instance-level validator (gpbft.go line 340)
checks against the instance id, power table, beacon and input base; the
transport-level validator (spec §4.5/§4.7) has no input chain and skips the
base check (`baseCheck = none`).  `baseCheck = some none` models an empty
input chain, on which the Go `input.Base()` would panic. -/
structure VCtx where
  instanceID : Nat
  powerTable : PowerTable
  beacon : Bytes
  baseCheck : Option (Option TipSet)

/-- The base acceptability check (gpbft.go line 357). -/
def checkBase (ctx : VCtx) (msg : GMessage) : GoRes Unit :=
  match ctx.baseCheck with
  | none => .ok ()
  | some none => .panic "base of empty input chain"
  | some (some b) =>
    if ¬ (ECChain.IsZero msg.Vote.Value || ECChain.HasBase msg.Vote.Value b) then
      .err (.str "unexpected base")
    else .ok ()

/-- The phase-specific constraints (gpbft.go lines 362-393). -/
def checkStep (host : HostModel) (ctx : VCtx) (msg : GMessage) (senderPubKey : Bytes) :
    GoRes Unit :=
  if msg.Vote.Step = INITIAL_PHASE then .err (.str "invalid vote step")
  else if msg.Vote.Step = QUALITY_PHASE then
    if msg.Vote.Round ≠ 0 then .err (.str "unexpected round for quality phase")
    else if ECChain.IsZero msg.Vote.Value then
      .err (.str "unexpected zero value for quality phase")
    else .ok ()
  else if msg.Vote.Step = CONVERGE_PHASE then
    if msg.Vote.Round = 0 then .err (.str "unexpected round 0 for converge phase")
    else if ECChain.IsZero msg.Vote.Value then
      .err (.str "unexpected zero value for converge phase")
    else if ¬ VerifyTicket ctx.beacon ctx.instanceID msg.Vote.Round senderPubKey host
        msg.Ticket then
      .err (.str "failed to verify ticket")
    else .ok ()
  else if msg.Vote.Step = DECIDE_PHASE then
    if msg.Vote.Round ≠ 0 then .err (.str "unexpected non-zero round for decide phase")
    else if ECChain.IsZero msg.Vote.Value then
      .err (.str "unexpected zero value for decide phase")
    else .ok ()
  else if msg.Vote.Step = PREPARE_PHASE ∨ msg.Vote.Step = COMMIT_PHASE then .ok ()
  else .err (.str "unknown vote step")

/-- Everything `validateMessage` checks before the justification block:
instance id, sender eligibility, value chain validity, base, phase-specific
constraints and the vote signature (gpbft.go lines 341-399). -/
def checkPre (host : HostModel) (ctx : VCtx) (msg : GMessage) : GoRes Unit :=
  if msg.Vote.Instance ≠ ctx.instanceID then .err (.str "message for wrong instance")
  else
    match ctx.powerTable.Get msg.Sender with
    | none => .err (.str "sender with zero power or not in power table")
    | some (senderPower, senderPubKey) =>
      if senderPower = 0 then .err (.str "sender with zero power or not in power table")
      else
        match ECChain.Validate msg.Vote.Value with
        | .error e => .err (.str e)
        | .ok _ =>
          match checkBase ctx msg with
          | .ok _ =>
            match checkStep host ctx msg senderPubKey with
            | .ok _ =>
              if ¬ host.verify senderPubKey
                  (Payload.MarshalForSigning msg.Vote host.networkName) msg.Signature then
                .err (.str "invalid signature")
              else .ok ()
            | r => r
          | r => r

/-- `needsJustification` (gpbft.go line 402): a justification is required
unless the message is QUALITY, round-0 PREPARE, or COMMIT for bottom. -/
def needsJustification (msg : GMessage) : Bool :=
  ¬ (msg.Vote.Step = QUALITY_PHASE ∨
    (msg.Vote.Step = PREPARE_PHASE ∧ msg.Vote.Round = 0) ∨
    (msg.Vote.Step = COMMIT_PHASE ∧ ECChain.IsZero msg.Vote.Value = true))

/-- `math.MaxUint64`, the "any round" sentinel of the expectations table. -/
def maxUint64 : Nat := 2 ^ 64 - 1

/-- `uint64` decrement: `r - 1` wrapping at zero, as the Go expectations
table computes `msg.Vote.Round - 1`. -/
def u64SubOne (r : Nat) : Nat := if r = 0 then 2 ^ 64 - 1 else r - 1

/-- The justification expectations table (gpbft.go lines 422-446): message
phase to the allowed justification phases, each with required round and
value. -/
def justExpectations (msg : GMessage) : Option (List (Phase × Nat × ECChain)) :=
  if msg.Vote.Step = CONVERGE_PHASE then
    some [(COMMIT_PHASE, u64SubOne msg.Vote.Round, []),
      (PREPARE_PHASE, u64SubOne msg.Vote.Round, msg.Vote.Value)]
  else if msg.Vote.Step = PREPARE_PHASE then
    some [(COMMIT_PHASE, u64SubOne msg.Vote.Round, []),
      (PREPARE_PHASE, u64SubOne msg.Vote.Round, msg.Vote.Value)]
  else if msg.Vote.Step = COMMIT_PHASE then
    some [(PREPARE_PHASE, msg.Vote.Round, msg.Vote.Value)]
  else if msg.Vote.Step = DECIDE_PHASE then
    some [(COMMIT_PHASE, maxUint64, msg.Vote.Value)]
  else none

/-- The signer-bitfield walk (gpbft.go lines 464-475): sums the signers'
power and collects their public keys, failing on an out-of-range index. -/
def justSignersLoop (pt : PowerTable) :
    List Nat → StoragePower → List Bytes → Except String (StoragePower × List Bytes)
  | [], acc, keys => .ok (acc, keys)
  | bit :: rest, acc, keys =>
    match pt.Entries[bit]? with
    | none => .error "invalid signer index"
    | some e => justSignersLoop pt rest (acc + e.Power) (keys ++ [e.PubKey])

/-- The justification block of `validateMessage` (gpbft.go lines 401-487). -/
def checkJust (host : HostModel) (ctx : VCtx) (msg : GMessage) : GoRes Unit :=
  if needsJustification msg then
    match msg.Justification with
    | none => .err (.str "message has no justification")
    | some just =>
      if msg.Vote.Instance ≠ just.Vote.Instance then
        .err (.str "message has evidence from wrong instance")
      else
        match ECChain.Validate just.Vote.Value with
        | .error e => .err (.str e)
        | .ok _ =>
          match justExpectations msg with
          | none => .err (.str "unexpected phase for justification")
          | some expectedPhases =>
            match lookupA expectedPhases just.Vote.Step with
            | none => .err (.str "justification with unexpected phase")
            | some (expRound, expValue) =>
              if just.Vote.Round ≠ expRound ∧ expRound ≠ maxUint64 then
                .err (.str "justification from wrong round")
              else if ¬ ECChain.Eq just.Vote.Value expValue then
                .err (.str "justification for a different value")
              else
                match justSignersLoop ctx.powerTable just.Signers 0 [] with
                | .error e => .err (.str e)
                | .ok (justificationPower, signerKeys) =>
                  if ¬ hasStrongQuorum justificationPower ctx.powerTable.Total then
                    .err (.str "justification with insufficient power")
                  else if ¬ host.verifyAggregate
                      (Payload.MarshalForSigning just.Vote host.networkName)
                      just.Signature signerKeys then
                    .err (.str "verification of the aggregate failed")
                  else .ok ()
  else
    match msg.Justification with
    | some _ => .err (.str "message has unexpected justification")
    | none => .ok ()

/-- `validateMessage` (gpbft.go line 340): the pre-justification checks
followed by the justification block. -/
def validateMessage (host : HostModel) (ctx : VCtx) (msg : GMessage) : GoRes Unit :=
  match checkPre host ctx msg with
  | .ok _ => checkJust host ctx msg
  | r => r


/-! ### Converge state (gpbft.go lines 1100-1180) -/

/-- A chain and its accompanying justification received at CONVERGE. -/
structure ConvergeValue where
  Chain : ECChain
  Justification : Option Justification
deriving Repr, DecidableEq

/-- A ticket provided by a proposer of a chain. -/
structure ConvergeTicket where
  Sender : ActorID
  Ticket : Bytes
deriving Repr, DecidableEq

/-- `convergeState` (gpbft.go line 1100). -/
structure convergeState where
  senders : List ActorID
  values : List (ChainKey × ConvergeValue)
  tickets : List (ChainKey × List ConvergeTicket)
deriving Repr, DecidableEq

/-- `newConvergeState` (gpbft.go line 1119). -/
def newConvergeState : convergeState :=
  { senders := [], values := [], tickets := [] }

/-- `convergeState.Receive` (gpbft.go line 1130): ignores an already-seen
sender, rejects bottom, and keeps only the first justification and ticket
received for a value. -/
def convergeState.Receive (sender : ActorID) (value : ECChain) (ticket : Bytes)
    (justification : Option Justification) : GoM convergeState Unit := fun c =>
  if c.senders.contains sender then (c, Outputs.empty, .ok ())
  else
    let c := { c with senders := c.senders ++ [sender] }
    if ECChain.IsZero value then (c, Outputs.empty, .err (.str "bottom cannot be justified for CONVERGE"))
    else
      let key := ECChain.Key value
      if (lookupA c.values key).isSome then (c, Outputs.empty, .ok ())
      else
        ({ c with
          values := updateA c.values key { Chain := value, Justification := justification },
          tickets := updateA c.tickets key
            ((lookupA c.tickets key).getD [] ++ [{ Sender := sender, Ticket := ticket }]) },
          Outputs.empty, .ok ())

/-- `convergeState.FindProposalFor` (gpbft.go line 1171). -/
def convergeState.FindProposalFor (c : convergeState) (chain : ECChain) :
    ConvergeValue × Bool :=
  match c.values.find? (fun p => ECChain.Eq p.2.Chain chain) with
  | some p => (p.2, true)
  | none => (⟨[], none⟩, false)

/-! ### The instance (gpbft.go lines 120-850)

Participant-side constants read by the instance methods are collected in
`PCfg`.  `phaseDelay r` stands for the Go synchrony delay
`2·delta·deltaBackOffExponent^r` at round `r` (float arithmetic abstracted
into an arbitrary function of the round). -/

structure PCfg where
  id : ActorID
  phaseDelay : Nat → Nat
  maxLookaheadRounds : Nat
  initialInstance : Nat
  fuel : Nat

/-- `roundState` (gpbft.go line 196). -/
structure RoundState where
  converged : convergeState
  prepared : quorumState
  committed : quorumState
deriving Repr, DecidableEq

/-- `newRoundState` (gpbft.go line 202). -/
def newRoundState (powerTable : PowerTable) : RoundState :=
  { converged := newConvergeState,
    prepared := newQuorumState powerTable,
    committed := newQuorumState powerTable }

/-- `instance` (gpbft.go line 121): a single Granite consensus instance.
Named `Instance` because `instance` is reserved in Lean. -/
structure Instance where
  instanceID : Nat
  input : ECChain
  powerTable : PowerTable
  beacon : Bytes
  round : Nat
  phase : Phase
  phaseTimeout : Nat
  proposal : ECChain
  value : ECChain
  candidates : List ECChain
  terminationValue : Option Justification
  inbox : List GMessage
  quality : quorumState
  rounds : List (Nat × RoundState)
  decision : quorumState
deriving Repr, DecidableEq

/-- `newInstance` (gpbft.go line 166). -/
def newInstance (instanceID : Nat) (input : ECChain) (powerTable : PowerTable)
    (beacon : Bytes) : Except String Instance :=
  if ECChain.IsZero input then .error "input is empty"
  else .ok
    { instanceID := instanceID, input := input, powerTable := powerTable,
      beacon := beacon, round := 0, phase := INITIAL_PHASE, phaseTimeout := 0,
      proposal := input, value := [], candidates := [ECChain.BaseChain input],
      terminationValue := none, inbox := [],
      quality := newQuorumState powerTable,
      rounds := [(0, newRoundState powerTable)],
      decision := newQuorumState powerTable }

/-- `instance.roundState` (gpbft.go line 747): the state of round `r`,
created and stored first when absent. -/
def Instance.roundStateL (i : Instance) (r : Nat) : RoundState × Instance :=
  match lookupA i.rounds r with
  | some rs => (rs, i)
  | none =>
    (newRoundState i.powerTable,
      { i with rounds := updateA i.rounds r (newRoundState i.powerTable) })

/-- Store the state of round `r`. -/
def Instance.setRound (i : Instance) (r : Nat) (rs : RoundState) : Instance :=
  { i with rounds := updateA i.rounds r rs }

/-- `instance.isCandidate` (gpbft.go line 763). -/
def Instance.isCandidate (i : Instance) (c : ECChain) : Bool :=
  i.candidates.any (fun candidate => ECChain.Eq c candidate)

/-- `instance.terminated` (gpbft.go line 780). -/
def Instance.terminated (i : Instance) : Bool := i.phase = TERMINATED_PHASE

/-- `instance.sign` (gpbft.go line 846): sign with the public key this
participant has in the instance power table (Go passes a `nil` key, here
`[]`, when the participant is absent). -/
def Instance.sign (cfg : PCfg) (host : HostModel) (i : Instance) (msg : Bytes) :
    Except String Bytes :=
  host.sign ((i.powerTable.Get cfg.id).elim [] (fun p => p.2)) msg

/-- `instance.alarmAfterSynchrony` (gpbft.go line 810): sets an alarm one
synchrony delay from now and returns its absolute time. -/
def Instance.alarmAfterSynchrony (cfg : PCfg) (host : HostModel) : GoM Instance Nat :=
  fun i =>
    let timeout := host.now + cfg.phaseDelay i.round
    (i, { Outputs.empty with alarms := [timeout] }, .ok timeout)

/-- `instance.broadcast` (gpbft.go line 784): sign the payload; on a signing
error only log and return (no broadcast, no self-delivery), otherwise
broadcast the message and enqueue it in the inbox. -/
def Instance.broadcast (cfg : PCfg) (host : HostModel) (round : Nat) (step : Phase)
    (value : ECChain) (ticket : Bytes) (justification : Option Justification) :
    GoM Instance Unit := fun i =>
  let p : Payload := { Instance := i.instanceID, Round := round, Step := step, Value := value }
  let sp := Payload.MarshalForSigning p host.networkName
  match Instance.sign cfg host i sp with
  | .error _ => (i, Outputs.empty, .ok ())
  | .ok sig =>
    let gmsg : GMessage := { Sender := cfg.id, Vote := p, Signature := sig, Ticket := ticket, Justification := justification }
    ({ i with inbox := i.inbox ++ [gmsg] }, { Outputs.empty with broadcasts := [gmsg] }, .ok ())

/-- `instance.buildJustification` (gpbft.go line 820): aggregate the quorum
signatures (panicking on an aggregation error) and assemble the
justification. -/
def Instance.buildJustification (host : HostModel) (quorum : QuorumResult) (round : Nat)
    (phase : Phase) (value : ECChain) : GoM Instance Justification := fun i =>
  match QuorumResult.Aggregate quorum host.aggregate with
  | .error e => (i, Outputs.empty, .panic ("aggregating: " ++ e))
  | .ok aggSignature =>
    (i, Outputs.empty, .ok { Vote := { Instance := i.instanceID, Round := round, Step := phase, Value := value }, Signers := QuorumResult.SignersBitfield quorum, Signature := aggSignature })

/-- `instance.beginCommit` (gpbft.go line 641): move to COMMIT, set the phase
alarm, build a PREPARE justification when the value is not bottom (panicking
when no strong quorum backs it), and broadcast. -/
def Instance.beginCommit (cfg : PCfg) (host : HostModel) : GoM Instance Unit := fun i =>
  let i := { i with phase := COMMIT_PHASE }
  let timeout := host.now + cfg.phaseDelay i.round
  let i := { i with phaseTimeout := timeout }
  let o1 : Outputs := { Outputs.empty with alarms := [timeout] }
  if ECChain.IsZero i.value then
    match Instance.broadcast cfg host i.round COMMIT_PHASE i.value [] none i with
    | (i2, o2, r) => (i2, o1.append o2, r)
  else
    match Instance.roundStateL i i.round with
    | (rs, i1) =>
      match quorumState.FindStrongQuorumFor rs.prepared (ECChain.Key i1.value) with
      | .ok (quorum, true) =>
        match Instance.buildJustification host quorum i1.round PREPARE_PHASE i1.value i1 with
        | (i2, o2, .ok justification) =>
          match Instance.broadcast cfg host i2.round COMMIT_PHASE i2.value []
              (some justification) i2 with
          | (i3, o3, r) => (i3, (o1.append o2).append o3, r)
        | (i2, o2, .err e) => (i2, o1.append o2, .err e)
        | (i2, o2, .panic m) => (i2, o1.append o2, .panic m)
      | .ok (_, false) =>
        (i1, o1, .panic "beginCommit with no strong quorum for non-bottom value")
      | .err e => (i1, o1, .err e)
      | .panic m => (i1, o1, .panic m)

/-- `instance.tryPrepare` (gpbft.go line 618): in PREPARE, adopt the proposal
on a strong quorum for it, or bottom on timeout with messages from a strong
quorum of senders, then begin COMMIT; otherwise leave the phase unchanged. -/
def Instance.tryPrepare (cfg : PCfg) (host : HostModel) : GoM Instance Unit := fun i =>
  if ¬ (i.phase = PREPARE_PHASE) then
    (i, Outputs.empty, .err (.str "unexpected phase, expected PREPARE"))
  else
    match Instance.roundStateL i i.round with
    | (rs, i1) =>
      let foundQuorum := quorumState.HasStrongQuorumFor rs.prepared (ECChain.Key i1.proposal)
      let timedOut := atOrAfter host.now i1.phaseTimeout &&
        quorumState.ReceivedFromStrongQuorum rs.prepared
      let i2 :=
        if foundQuorum then { i1 with value := i1.proposal }
        else if timedOut then { i1 with value := [] }
        else i1
      if foundQuorum || timedOut then Instance.beginCommit cfg host i2
      else (i2, Outputs.empty, .ok ())

/-! ### The rest of the instance machine (gpbft.go lines 209-780) -/

/-- Wrap an error result with a `fmt.Errorf("...: %w", err)` tag. -/
def wrapErrM {σ α : Type} (tag : String) (m : GoM σ α) : GoM σ α := fun s =>
  match m s with
  | (s1, o, .err e) => (s1, o, .err (.wrap tag e))
  | r => r

/-- Run a quorum-state method on the QUALITY tracker. -/
def zoomQuality {α : Type} (f : GoM quorumState α) : GoM Instance α :=
  GoM.zoom (fun i => i.quality) (fun i q => { i with quality := q }) f

/-- Run a quorum-state method on the DECIDE tracker. -/
def zoomDecision {α : Type} (f : GoM quorumState α) : GoM Instance α :=
  GoM.zoom (fun i => i.decision) (fun i q => { i with decision := q }) f

/-- Run a method on the state of round `r`, creating it first as
`i.roundState(r)` does. -/
def zoomRound {α : Type} (r : Nat) (f : GoM RoundState α) : GoM Instance α := fun i =>
  match Instance.roundStateL i r with
  | (rs, i1) =>
    match f rs with
    | (rs1, o, res) => (Instance.setRound i1 r rs1, o, res)

/-- Run a quorum-state method on round `r`'s PREPARE tracker. -/
def zoomPrepared {α : Type} (r : Nat) (f : GoM quorumState α) : GoM Instance α :=
  zoomRound r (GoM.zoom (fun rs => rs.prepared) (fun rs q => { rs with prepared := q }) f)

/-- Run a quorum-state method on round `r`'s COMMIT tracker. -/
def zoomCommitted {α : Type} (r : Nat) (f : GoM quorumState α) : GoM Instance α :=
  zoomRound r (GoM.zoom (fun rs => rs.committed) (fun rs q => { rs with committed := q }) f)

/-- Run a converge-state method on round `r`'s CONVERGE tracker. -/
def zoomConverged {α : Type} (r : Nat) (f : GoM convergeState α) : GoM Instance α :=
  zoomRound r (GoM.zoom (fun rs => rs.converged) (fun rs c => { rs with converged := c }) f)

/-- `big.Int.SetBytes`: big-endian bytes to a natural number. -/
def bytesToNat (bs : Bytes) : Nat := bs.foldl (fun acc b => acc * 256 + b) 0

/-- The inner ticket loop of `FindMaxTicketProposal` (gpbft.go lines
1158-1166): weight each ticket by its sender's power and keep the maximum.
Panics (as the Go `big.Int.Mul` on a nil power does) when a ticket's sender
is missing from the power table. -/
def fmtpTickets (table : PowerTable) (value : ConvergeValue) :
    List ConvergeTicket → Option Nat × ConvergeValue → GoRes (Option Nat × ConvergeValue)
  | [], acc => .ok acc
  | t :: rest, (maxT, maxV) =>
    match table.Get t.Sender with
    | none => .panic "nil sender power at CONVERGE"
    | some (pw, _) =>
      let w := bytesToNat t.Ticket * pw
      if maxT.elim true (fun mx => mx < w) then fmtpTickets table value rest (some w, value)
      else fmtpTickets table value rest (maxT, maxV)

/-- The outer value loop of `FindMaxTicketProposal` (gpbft.go line 1157). -/
def fmtpValues (table : PowerTable) (tickets : List (ChainKey × List ConvergeTicket)) :
    List (ChainKey × ConvergeValue) → Option Nat × ConvergeValue →
      GoRes (Option Nat × ConvergeValue)
  | [], acc => .ok acc
  | (key, value) :: rest, acc =>
    match fmtpTickets table value ((lookupA tickets key).getD []) acc with
    | .ok acc1 => fmtpValues table tickets rest acc1
    | .err e => .err e
    | .panic m => .panic m

/-- `convergeState.FindMaxTicketProposal` (gpbft.go line 1153): the received
value with the highest power-weighted ticket (`ConvergeValue{}`, i.e. an
empty chain, when none). -/
def convergeState.FindMaxTicketProposal (c : convergeState) (table : PowerTable) :
    GoRes ConvergeValue :=
  match fmtpValues table c.tickets c.values (none, ⟨[], none⟩) with
  | .ok (_, v) => .ok v
  | .err e => .err e
  | .panic m => .panic m

/-- `findFirstPrefixOf` (gpbft.go line 1183): the first candidate that is a
prefix of the preferred chain, or the preferred chain's base. -/
def findFirstPrefixOf (preferred : ECChain) (candidates : List ECChain) : ECChain :=
  match candidates.find? (fun v => ECChain.HasPrefix preferred v) with
  | some v => v
  | none => ECChain.BaseChain preferred

/-- `instance.skipToDecide` (gpbft.go line 726): jump to DECIDE with the
given value and broadcast it with the provided justification. -/
def Instance.skipToDecide (cfg : PCfg) (host : HostModel) (value : ECChain)
    (justification : Option Justification) : GoM Instance Unit := fun i =>
  Instance.broadcast cfg host 0 DECIDE_PHASE value [] justification
    { i with phase := DECIDE_PHASE, proposal := value, value := value }

/-- `instance.beginDecide` (gpbft.go line 700): move to DECIDE, build a
COMMIT justification from round `r`'s strong quorum for the value (panicking
when there is none) and broadcast a round-0 DECIDE. -/
def Instance.beginDecide (cfg : PCfg) (host : HostModel) (r : Nat) : GoM Instance Unit :=
  fun i0 =>
  let i := { i0 with phase := DECIDE_PHASE }
  match Instance.roundStateL i r with
  | (rs, i1) =>
    match quorumState.FindStrongQuorumFor rs.committed (ECChain.Key i1.value) with
    | .ok (quorum, true) =>
      match Instance.buildJustification host quorum r COMMIT_PHASE i1.value i1 with
      | (i2, o2, .ok justification) =>
        match Instance.broadcast cfg host 0 DECIDE_PHASE i2.value [] (some justification) i2 with
        | (i3, o3, r1) => (i3, o2.append o3, r1)
      | (i2, o2, .err e) => (i2, o2, .err e)
      | (i2, o2, .panic m) => (i2, o2, .panic m)
    | .ok (_, false) => (i1, Outputs.empty, .panic "beginDecide with no strong quorum for value")
    | .err e => (i1, Outputs.empty, .err e)
    | .panic m => (i1, Outputs.empty, .panic m)

/-- `instance.terminate` (gpbft.go line 773). -/
def Instance.terminate (decision : Justification) : GoM Instance Unit := fun i =>
  ({ i with phase := TERMINATED_PHASE, value := decision.Vote.Value, terminationValue := some decision }, Outputs.empty, .ok ())

/-- `instance.tryDecide` (gpbft.go line 733): on a strong quorum of DECIDEs,
build the decision justification and terminate (panicking when the quorum
value has no quorum result). -/
def Instance.tryDecide (cfg : PCfg) (host : HostModel) : GoM Instance Unit := fun i =>
  match quorumState.FindStrongQuorumValue i.decision with
  | .ok (quorumValue, true) =>
    match quorumState.FindStrongQuorumFor i.decision (ECChain.Key quorumValue) with
    | .ok (quorum, true) =>
      match Instance.buildJustification host quorum 0 DECIDE_PHASE quorumValue i with
      | (i1, o1, .ok decision) =>
        match Instance.terminate decision i1 with
        | (i2, o2, r1) => (i2, o1.append o2, r1)
      | (i1, o1, .err e) => (i1, o1, .err e)
      | (i1, o1, .panic m) => (i1, o1, .panic m)
    | .ok (_, false) => (i, Outputs.empty, .panic "tryDecide with no strong quorum for value")
    | .err e => (i, Outputs.empty, .err e)
    | .panic m => (i, Outputs.empty, .panic m)
  | .ok (_, false) => (i, Outputs.empty, .ok ())
  | .err e => (i, Outputs.empty, .err e)
  | .panic m => (i, Outputs.empty, .panic m)

/-- `instance.beginPrepare` (gpbft.go line 609): move to PREPARE, set the
phase alarm and broadcast the value with the given justification. -/
def Instance.beginPrepare (cfg : PCfg) (host : HostModel)
    (justification : Option Justification) : GoM Instance Unit := fun i0 =>
  let i := { i0 with phase := PREPARE_PHASE }
  let timeout := host.now + cfg.phaseDelay i.round
  let i := { i with phaseTimeout := timeout }
  match Instance.broadcast cfg host i.round PREPARE_PHASE i.value [] justification i with
  | (i1, o1, r) => (i1, Outputs.append ⟨[], [timeout], []⟩ o1, r)

/-- The adoption tail of `tryQuality` (gpbft.go lines 522-531): add every
non-base prefix of the (possibly updated) proposal to the candidates, set
the value and begin PREPARE with no justification. -/
def Instance.qualityAdopt (cfg : PCfg) (host : HostModel) : GoM Instance Unit := fun i0 =>
  let cands := ((List.range i0.proposal.length).filter (fun l => 0 < l)).map
    (fun l => ECChain.Prefix i0.proposal l)
  let i := { i0 with candidates := i0.candidates ++ cands }
  let i := { i with value := i.proposal }
  Instance.beginPrepare cfg host none i

/-- `instance.tryQuality` (gpbft.go line 505): on a strong quorum for the
proposal keep it; else on timeout adopt the longest strong-quorum prefix
(or the base); in either case record candidate prefixes and begin PREPARE. -/
def Instance.tryQuality (cfg : PCfg) (host : HostModel) : GoM Instance Unit := fun i =>
  if ¬ (i.phase = QUALITY_PHASE) then
    (i, Outputs.empty, .err (.str "unexpected phase, expected QUALITY"))
  else
    let foundQuorum := quorumState.HasStrongQuorumFor i.quality (ECChain.Key i.proposal)
    let timeoutExpired := atOrAfter host.now i.phaseTimeout
    if foundQuorum then Instance.qualityAdopt cfg host i
    else if timeoutExpired then
      match quorumState.ListStrongQuorumValues i.quality with
      | .ok strongQuora =>
        Instance.qualityAdopt cfg host
          { i with proposal := findFirstPrefixOf i.proposal strongQuora }
      | .err e => (i, Outputs.empty, .err e)
      | .panic m => (i, Outputs.empty, .panic m)
    else (i, Outputs.empty, .ok ())

/-- `instance.beginQuality` (gpbft.go line 489): from INITIAL only, move to
QUALITY, set the phase alarm and broadcast the input chain. -/
def Instance.beginQuality (cfg : PCfg) (host : HostModel) : GoM Instance Unit := fun i0 =>
  if ¬ (i0.phase = INITIAL_PHASE) then
    (i0, Outputs.empty, .err (.str "cannot transition to QUALITY"))
  else
    let i := { i0 with phase := QUALITY_PHASE }
    let timeout := host.now + cfg.phaseDelay i.round
    let i := { i with phaseTimeout := timeout }
    match Instance.broadcast cfg host i.round QUALITY_PHASE i.input [] none i with
    | (i1, o1, r) => (i1, Outputs.append ⟨[], [timeout], []⟩ o1, r)

/-- `instance.beginConverge` (gpbft.go line 536): move to CONVERGE, set the
phase alarm, justify with the previous round's strong COMMIT quorum for
bottom or a stored justification for the proposal (panicking when neither
exists), make a VRF ticket (on a signing error only log and return) and
broadcast the proposal. -/
def Instance.beginConverge (cfg : PCfg) (host : HostModel) : GoM Instance Unit := fun i0 =>
  let i := { i0 with phase := CONVERGE_PHASE }
  let timeout := host.now + cfg.phaseDelay i.round
  let i := { i with phaseTimeout := timeout }
  let o1 : Outputs := ⟨[], [timeout], []⟩
  match Instance.roundStateL i (u64SubOne i.round) with
  | (prevRS, i1) =>
    match quorumState.FindStrongQuorumFor prevRS.committed [] with
    | .ok (quorum, true) =>
      match Instance.buildJustification host quorum (u64SubOne i1.round) COMMIT_PHASE [] i1 with
      | (i2, o2, .ok justification) =>
        match MakeTicket i2.beacon i2.instanceID i2.round
            ((i2.powerTable.Get cfg.id).elim [] (fun p => p.2)) host with
        | .error _ => (i2, o1.append o2, .ok ())
        | .ok ticket =>
          match Instance.broadcast cfg host i2.round CONVERGE_PHASE i2.proposal ticket
              (some justification) i2 with
          | (i3, o3, r) => (i3, (o1.append o2).append o3, r)
      | (i2, o2, .err e) => (i2, o1.append o2, .err e)
      | (i2, o2, .panic m) => (i2, o1.append o2, .panic m)
    | .ok (_, false) =>
      match lookupA prevRS.committed.receivedJustification (ECChain.Key i1.proposal) with
      | none => (i1, o1, .panic "beginConverge called but no justification for proposal")
      | some justification =>
        match MakeTicket i1.beacon i1.instanceID i1.round
            ((i1.powerTable.Get cfg.id).elim [] (fun p => p.2)) host with
        | .error _ => (i1, o1, .ok ())
        | .ok ticket =>
          match Instance.broadcast cfg host i1.round CONVERGE_PHASE i1.proposal ticket
              (some justification) i1 with
          | (i3, o3, r) => (i3, o1.append o3, r)
    | .err e => (i1, o1, .err e)
    | .panic m => (i1, o1, .panic m)

/-- `instance.beginNextRound` (gpbft.go line 756): advance the round and
begin CONVERGE. -/
def Instance.beginNextRound (cfg : PCfg) (host : HostModel) : GoM Instance Unit := fun i =>
  Instance.beginConverge cfg host { i with round := i.round + 1 }

/-- The sway step of `tryCommit` (gpbft.go lines 681-693): when there is no
strong quorum for bottom, adopt the first non-bottom COMMIT value as a
candidate and as the proposal. -/
def Instance.commitSway (committed : quorumState) (i1 : Instance) : Instance :=
  match (quorumState.ListAllValues committed).find? (fun v => ¬ ECChain.IsZero v) with
  | none => i1
  | some v =>
    let i2 := if Instance.isCandidate i1 v then i1
      else { i1 with candidates := i1.candidates ++ [v] }
    if ¬ ECChain.Eq v i2.proposal then { i2 with proposal := v } else i2

/-- `instance.tryCommit` (gpbft.go line 663): a strong quorum for a
non-bottom value decides it in round `r`; otherwise, in the current COMMIT
phase of round `r` after the timeout with messages from a strong quorum of
senders, sway (when there is no strong quorum for bottom) and begin the
next round. -/
def Instance.tryCommit (cfg : PCfg) (host : HostModel) (r : Nat) : GoM Instance Unit :=
  fun i =>
  match Instance.roundStateL i r with
  | (rs, i1) =>
    match quorumState.FindStrongQuorumValue rs.committed with
    | .ok (quorumValue, foundStrongQuorum) =>
      let timedOut := atOrAfter host.now i1.phaseTimeout &&
        quorumState.ReceivedFromStrongQuorum rs.committed
      if foundStrongQuorum && ¬ ECChain.IsZero quorumValue then
        Instance.beginDecide cfg host r { i1 with value := quorumValue }
      else if i1.round = r && i1.phase = COMMIT_PHASE && timedOut then
        Instance.beginNextRound cfg host
          (if foundStrongQuorum then i1 else Instance.commitSway rs.committed i1)
      else (i1, Outputs.empty, .ok ())
    | .err e => (i1, Outputs.empty, .err e)
    | .panic m => (i1, Outputs.empty, .panic m)

/-- The proposal/justification selection of `tryConverge` (gpbft.go lines
583-599): adopt the winner if it is (or has just become) a candidate, else
keep the own proposal with the justification found for it (panicking when
absent). -/
def Instance.convergeAdopt (winner : ConvergeValue) (rs : RoundState)
    (i2 : Instance) : GoRes (Instance × Option Justification) :=
  if Instance.isCandidate i2 winner.Chain then
    .ok ({ i2 with proposal := winner.Chain }, winner.Justification)
  else
    match convergeState.FindProposalFor rs.converged i2.proposal with
    | (fallback, true) => .ok (i2, fallback.Justification)
    | (_, false) => .panic "own proposal not found at CONVERGE"

/-- `instance.tryConverge` (gpbft.go line 567): after the CONVERGE timeout,
find the max-ticket winner (failing on an empty CONVERGE state), possibly
sway to it, adopt it or fall back to the own proposal, and begin PREPARE. -/
def Instance.tryConverge (cfg : PCfg) (host : HostModel) : GoM Instance Unit := fun i =>
  if ¬ (i.phase = CONVERGE_PHASE) then
    (i, Outputs.empty, .err (.str "unexpected phase, expected CONVERGE"))
  else if ¬ atOrAfter host.now i.phaseTimeout then (i, Outputs.empty, .ok ())
  else
    match Instance.roundStateL i (u64SubOne i.round) with
    | (prevRS, i0) =>
      let possibleDecisionLastRound := ¬ quorumState.HasStrongQuorumFor prevRS.committed []
      match Instance.roundStateL i0 i0.round with
      | (rs, i1) =>
        match convergeState.FindMaxTicketProposal rs.converged i1.powerTable with
        | .ok winner =>
          if ECChain.IsZero winner.Chain then
            (i1, Outputs.empty, .err (.str "no values at CONVERGE"))
          else
            match
              (if Instance.isCandidate i1 winner.Chain then .ok i1
               else
                 match winner.Justification with
                 | none => .panic "nil justification at CONVERGE"
                 | some wj =>
                   if wj.Vote.Step = PREPARE_PHASE && possibleDecisionLastRound then
                     .ok { i1 with candidates := i1.candidates ++ [winner.Chain] }
                   else .ok i1 : GoRes Instance) with
            | .ok i2 =>
              match Instance.convergeAdopt winner rs i2 with
              | .ok (i3, justification) =>
                Instance.beginPrepare cfg host justification { i3 with value := i3.proposal }
              | .err e => (i2, Outputs.empty, .err e)
              | .panic m => (i2, Outputs.empty, .panic m)
            | .err e => (i1, Outputs.empty, .err e)
            | .panic m => (i1, Outputs.empty, .panic m)
        | .err e => (i1, Outputs.empty, .err e)
        | .panic m => (i1, Outputs.empty, .panic m)

/-- `instance.tryCompletePhase` (gpbft.go line 319). -/
def Instance.tryCompletePhase (cfg : PCfg) (host : HostModel) : GoM Instance Unit := fun i =>
  if i.phase = QUALITY_PHASE then Instance.tryQuality cfg host i
  else if i.phase = CONVERGE_PHASE then Instance.tryConverge cfg host i
  else if i.phase = PREPARE_PHASE then Instance.tryPrepare cfg host i
  else if i.phase = COMMIT_PHASE then Instance.tryCommit cfg host i.round i
  else if i.phase = DECIDE_PHASE then Instance.tryDecide cfg host i
  else if i.phase = TERMINATED_PHASE then (i, Outputs.empty, .ok ())
  else (i, Outputs.empty, .err (.str "unexpected phase"))

/-- `instance.receiveOne` (gpbft.go line 272): process a single validated
message — create the message round's state, dispatch on the step, then try
to complete the phase (or the message round's COMMIT). -/
def Instance.receiveOne (cfg : PCfg) (host : HostModel) (msg : GMessage) :
    GoM Instance Unit := do
  let i0 ← getS
  if i0.phase = TERMINATED_PHASE then
    pure ()
  else do
    modS (fun i => (Instance.roundStateL i msg.Vote.Round).2)
    if msg.Vote.Step = QUALITY_PHASE then
      zoomQuality (quorumState.ReceiveEachPrefix msg.Sender msg.Vote.Value)
    else if msg.Vote.Step = CONVERGE_PHASE then
      wrapErrM "failed processing CONVERGE message"
        (zoomConverged msg.Vote.Round
          (convergeState.Receive msg.Sender msg.Vote.Value msg.Ticket msg.Justification))
    else if msg.Vote.Step = PREPARE_PHASE then
      zoomPrepared msg.Vote.Round
        (quorumState.Receive msg.Sender msg.Vote.Value msg.Signature)
    else if msg.Vote.Step = COMMIT_PHASE then do
      zoomCommitted msg.Vote.Round
        (quorumState.Receive msg.Sender msg.Vote.Value msg.Signature)
      if ¬ ECChain.IsZero msg.Vote.Value then
        zoomCommitted msg.Vote.Round
          (quorumState.ReceiveJustification msg.Vote.Value msg.Justification)
      else pure ()
    else if msg.Vote.Step = DECIDE_PHASE then do
      zoomDecision (quorumState.Receive msg.Sender msg.Vote.Value msg.Signature)
      let i1 ← getS
      if ¬ (i1.phase = DECIDE_PHASE) then
        Instance.skipToDecide cfg host msg.Vote.Value msg.Justification
      else pure ()
      wrapErrM "failed to decide" (Instance.tryDecide cfg host)
    else
      pure ()
    let i2 ← getS
    if msg.Vote.Step = COMMIT_PHASE ∧ ¬ (i2.phase = DECIDE_PHASE) then
      Instance.tryCommit cfg host msg.Vote.Round
    else
      Instance.tryCompletePhase cfg host

/-- `instance.drainInbox` (gpbft.go line 258): process inbox messages one at
a time, leaving the message being processed in the inbox until it is done.
The Go loop has no structural bound (processing may enqueue further
messages), so it is run on explicit fuel; exhausted fuel panics. -/
def Instance.drainInbox (cfg : PCfg) (host : HostModel) : Nat → GoM Instance Unit
  | 0 => fun i =>
    if i.inbox.isEmpty then (i, Outputs.empty, .ok ())
    else (i, Outputs.empty, .panic "out of drain fuel")
  | fuel + 1 => fun i =>
    match i.inbox with
    | [] => (i, Outputs.empty, .ok ())
    | m :: _ =>
      match Instance.receiveOne cfg host m i with
      | (i1, o1, .ok _) =>
        match Instance.drainInbox cfg host fuel { i1 with inbox := i1.inbox.drop 1 } with
        | (i2, o2, r) => (i2, o1.append o2, r)
      | (i1, o1, .err e) => (i1, o1, .err (.wrap "failed receiving message" e))
      | (i1, o1, .panic msg) => (i1, o1, .panic msg)

/-- `instance.Receive` (gpbft.go line 227): reject after termination or
while draining, otherwise enqueue the message and drain the inbox. -/
def Instance.Receive (cfg : PCfg) (host : HostModel) (fuel : Nat) (msg : GMessage) :
    GoM Instance Unit := fun i =>
  if Instance.terminated i then (i, Outputs.empty, .err (.str "senders message after decision"))
  else if ¬ i.inbox.isEmpty then
    (i, Outputs.empty, .err (.str "senders message while already processing inbox"))
  else Instance.drainInbox cfg host fuel { i with inbox := i.inbox ++ [msg] }

/-- `instance.ReceiveAlarm` (gpbft.go line 240): try to complete the phase,
then re-process queued messages. -/
def Instance.ReceiveAlarmI (cfg : PCfg) (host : HostModel) (fuel : Nat) :
    GoM Instance Unit := fun i =>
  match Instance.tryCompletePhase cfg host i with
  | (i1, o1, .ok _) =>
    match Instance.drainInbox cfg host fuel i1 with
    | (i2, o2, r) => (i2, o1.append o2, r)
  | (i1, o1, .err e) => (i1, o1, .err (.wrap "failed completing protocol phase" e))
  | (i1, o1, .panic m) => (i1, o1, .panic m)

/-- `instance.Start` (gpbft.go line 209): begin QUALITY and drain the
inbox. -/
def Instance.StartI (cfg : PCfg) (host : HostModel) (fuel : Nat) : GoM Instance Unit :=
  fun i =>
  match Instance.beginQuality cfg host i with
  | (i1, o1, .ok _) =>
    match Instance.drainInbox cfg host fuel i1 with
    | (i2, o2, r) => (i2, o1.append o2, r)
  | (i1, o1, .err e) => (i1, o1, .err e)
  | (i1, o1, .panic m) => (i1, o1, .panic m)

/-! ### The participant (participant.go) -/

/-- `messageQueue` (participant.go line 250): future-instance messages keyed
by instance, then sender. -/
structure messageQueue where
  maxRound : Nat
  messages : List (Nat × List (ActorID × List GMessage))
deriving Repr, DecidableEq

/-- `newMessageQueue` (participant.go line 259). -/
def newMessageQueue (maxRound : Nat) : messageQueue :=
  { maxRound := maxRound, messages := [] }

/-- Modelled from the spec: `isSpammable` (called by `messageQueue.Add` but
not present in src/) — a message is spammable when it is unjustified, per
the spec "dropping *spammable* unjustified messages beyond
`max_lookahead_rounds`". -/
def isSpammable (m : GMessage) : Bool := m.Justification.isNone

/-- `messageQueue.Add` (participant.go line 266): ensure the instance queue
exists, drop unjustified messages beyond the round limit, drop duplicates
(same sender, round and step), otherwise append to the sender's list. -/
def messageQueue.Add (msg : GMessage) (q0 : messageQueue) : messageQueue :=
  let iqq :=
    match lookupA q0.messages msg.Vote.Instance with
    | some iq => (iq, q0)
    | none => ([], { q0 with messages := updateA q0.messages msg.Vote.Instance [] })
  match iqq with
  | (instanceQueue, q) =>
    if msg.Vote.Round > q.maxRound && isSpammable msg then q
    else
      let senderList := (lookupA instanceQueue msg.Sender).getD []
      if senderList.any (fun m => m.Vote.Round = msg.Vote.Round && m.Vote.Step = msg.Vote.Step) then q
      else { q with messages := updateA q.messages msg.Vote.Instance (updateA instanceQueue msg.Sender (senderList ++ [msg])) }

/-- The message order used by `messageQueue.Drain`: by round, then step. -/
def mqLE (a b : GMessage) : Prop :=
  a.Vote.Round < b.Vote.Round ∨ (a.Vote.Round = b.Vote.Round ∧ a.Vote.Step ≤ b.Vote.Step)

instance : DecidableRel mqLE := fun a b => by
  unfold mqLE; infer_instance

/-- `messageQueue.Drain` (participant.go line 288): all messages queued for
the instance, sorted stably by round then step, removing them from the
queue. -/
def messageQueue.Drain (instID : Nat) (q : messageQueue) : List GMessage × messageQueue :=
  let msgs := (((lookupA q.messages instID).getD []).map (fun p => p.2)).flatten
  (List.insertionSort mqLE msgs, { q with messages := eraseA q.messages instID })

/-- `Participant` (participant.go line 10): the current instance number, the
running instance (if any), the committee cache, the future-message queue and
the last decision. -/
structure Participant where
  currentInstance : Nat
  gpbft : Option Instance
  committees : List (Nat × (PowerTable × Bytes))
  mqueue : messageQueue
  finalised : Option Justification
  terminatedDuringRound : Nat
deriving Repr, DecidableEq

/-- `NewParticipant` (participant.go line 49). -/
def newParticipant (cfg : PCfg) : Participant :=
  { currentInstance := cfg.initialInstance, gpbft := none, committees := [],
    mqueue := newMessageQueue cfg.maxLookaheadRounds, finalised := none,
    terminatedDuringRound := 0 }

/-- The `defer recover` wrapper of every public participant entry point
(participant.go lines 64-67, 83-87, 111-115, 139-143): a panic raised by the
body becomes a returned `PanicError`; Go keeps the mutations made before the
panic, as the state monad does. -/
def recoverWrap {σ α : Type} (m : GoM σ α) : GoM σ α := fun s =>
  match m s with
  | (s1, o, .panic msg) => (s1, o, .err (.panicErr msg))
  | r => r

/-- `Participant.getCommittee` (participant.go line 203): serve from the
cache, else fetch from the host (recorded as a committee-fetch effect),
validate the power table and cache it. -/
def Participant.getCommittee (host : HostModel) (instID : Nat) :
    GoM Participant (PowerTable × Bytes) := fun p =>
  match lookupA p.committees instID with
  | some c => (p, Outputs.empty, .ok c)
  | none =>
    match host.getCommitteeForInstance instID with
    | .error e => (p, ⟨[], [], [instID]⟩, .err (.wrap "failed fetching committee" (.str e)))
    | .ok (power, beacon) =>
      match PowerTable.Validate power with
      | .error e => (p, ⟨[], [], [instID]⟩, .err (.wrap "invalid power table" (.str e)))
      | .ok _ =>
        ({ p with committees := updateA p.committees instID (power, beacon) }, ⟨[], [], [instID]⟩, .ok (power, beacon))

/-- Modelled from the spec: the top-level `ValidateMessage(power, beacon,
host, msg)` called by `Participant.ValidateMessage` is not present in src/;
per spec §4.5 it runs the message validator against the target instance's
committee (power table and beacon), with no instance input chain and hence
no base-acceptability check. -/
def ValidateMessageTL (power : PowerTable) (beacon : Bytes) (host : HostModel)
    (msg : GMessage) : GoRes Unit :=
  validateMessage host
    { instanceID := msg.Vote.Instance, powerTable := power, beacon := beacon,
      baseCheck := none } msg

/-- The body of `Participant.ValidateMessage` (participant.go lines 89-106):
reject past instances with `ErrValidationTooOld` before any committee fetch,
wrap committee-fetch failures in `ErrValidationNoCommittee`, and validator
failures in `ErrValidationInvalid`. -/
def Participant.validateInner (host : HostModel) (msg : GMessage) :
    GoM Participant GMessage := fun p =>
  if msg.Vote.Instance < p.currentInstance then
    (p, Outputs.empty, .err (.wrap "message for past instance" .tooOld))
  else
    match Participant.getCommittee host msg.Vote.Instance p with
    | (p1, o1, .ok (power, beacon)) =>
      match ValidateMessageTL power beacon host msg with
      | .ok _ => (p1, o1, .ok msg)
      | .err e => (p1, o1, .err (.wrapPair .invalid e))
      | .panic m => (p1, o1, .panic m)
    | (p1, o1, .err e) => (p1, o1, .err (.wrapPair .noCommittee e))
    | (p1, o1, .panic m) => (p1, o1, .panic m)

/-- `Participant.ValidateMessage` (participant.go line 82). -/
def Participant.ValidateMessage (host : HostModel) (msg : GMessage) :
    GoM Participant GMessage :=
  recoverWrap (Participant.validateInner host msg)

/-- `Participant.terminated` (participant.go line 233). -/
def Participant.terminatedP (p : Participant) : Bool :=
  match p.gpbft with
  | some g => g.phase = TERMINATED_PHASE
  | none => false

/-- `Participant.handleDecision` (participant.go line 219): when the current
instance has terminated, record the decision, drop the instance and its
committee, advance the instance number, report the decision to the host and
set the alarm for the next instance. -/
def Participant.handleDecision (host : HostModel) : GoM Participant Unit := fun p =>
  if Participant.terminatedP p then
    match p.gpbft with
    | none => (p, Outputs.empty, .ok ())
    | some g =>
      ({ p with finalised := g.terminationValue, terminatedDuringRound := g.round, committees := eraseA p.committees g.instanceID, gpbft := none, currentInstance := p.currentInstance + 1 },
        ⟨[], [host.receiveDecision g.terminationValue], []⟩, .ok ())
  else (p, Outputs.empty, .ok ())

/-- The queued-message delivery loop of `beginInstance` (participant.go
lines 183-198): deliver each drained message to the instance, stopping at
termination and silently skipping `ErrValidationWrongBase` failures. -/
def Participant.deliverQueued (cfg : PCfg) (host : HostModel) :
    List GMessage → GoM Participant Unit
  | [] => fun p => (p, Outputs.empty, .ok ())
  | m :: rest => fun p =>
    if Participant.terminatedP p then (p, Outputs.empty, .ok ())
    else
      match p.gpbft with
      | none => (p, Outputs.empty, .panic "nil instance dereference")
      | some g =>
        match Instance.Receive cfg host cfg.fuel m g with
        | (g1, o1, .ok _) =>
          match Participant.deliverQueued cfg host rest { p with gpbft := some g1 } with
          | (p2, o2, r) => (p2, o1.append o2, r)
        | (g1, o1, .err e) =>
          if GErr.is e .wrongBase then
            match Participant.deliverQueued cfg host rest { p with gpbft := some g1 } with
            | (p2, o2, r) => (p2, o1.append o2, r)
          else ({ p with gpbft := some g1 }, o1, .err (.wrap "delivering queued message" e))
        | (g1, o1, .panic msg) => ({ p with gpbft := some g1 }, o1, .panic msg)

/-- `Participant.beginInstance` (participant.go line 155): fetch and trim
the canonical chain, fetch the committee, create and start the instance,
deliver queued messages and handle a possible decision. -/
def Participant.beginInstance (cfg : PCfg) (host : HostModel) : GoM Participant Unit :=
  fun p =>
  match host.getChainForInstance p.currentInstance with
  | .error e => (p, Outputs.empty, .err (.wrap "failed fetching chain" (.str e)))
  | .ok chain0 =>
    if ECChain.IsZero chain0 then
      (p, Outputs.empty, .err (.str "canonical chain cannot be zero-valued"))
    else
      let chain := ECChain.Prefix chain0 (CHAIN_MAX_LEN - 1)
      match ECChain.Validate chain with
      | .error e => (p, Outputs.empty, .err (.wrap "invalid canonical chain" (.str e)))
      | .ok _ =>
        match Participant.getCommittee host p.currentInstance p with
        | (p1, o1, .ok (power, beacon)) =>
          match newInstance p1.currentInstance chain power beacon with
          | .error e => (p1, o1, .err (.wrap "failed creating new gpbft instance" (.str e)))
          | .ok inst =>
            match Instance.StartI cfg host cfg.fuel inst with
            | (g1, o2, .ok _) =>
              match messageQueue.Drain g1.instanceID p1.mqueue with
              | (msgs, mq) =>
                match Participant.deliverQueued cfg host msgs { p1 with gpbft := some g1, mqueue := mq } with
                | (p5, o3, .ok _) =>
                  match Participant.handleDecision host p5 with
                  | (p6, o4, r) => (p6, ((o1.append o2).append o3).append o4, r)
                | (p5, o3, .err e) => (p5, (o1.append o2).append o3, .err e)
                | (p5, o3, .panic m) => (p5, (o1.append o2).append o3, .panic m)
            | (g1, o2, .err e) =>
              ({ p1 with gpbft := some g1 }, o1.append o2, .err (.wrap "failed starting gpbft instance" e))
            | (g1, o2, .panic m) => ({ p1 with gpbft := some g1 }, o1.append o2, .panic m)
        | (p1, o1, .err e) => (p1, o1, .err e)
        | (p1, o1, .panic m) => (p1, o1, .panic m)

/-- `Participant.Start` (participant.go line 64). -/
def Participant.Start (cfg : PCfg) (host : HostModel) : GoM Participant Unit :=
  recoverWrap (Participant.beginInstance cfg host)

/-- The body of `Participant.ReceiveMessage` (participant.go lines 117-134):
reject past instances with `ErrValidationTooOld`; deliver current-instance
messages immediately (wrapping failures in `ErrReceivedInternalError` and
handling a possible decision); queue the rest for future instances. -/
def Participant.receiveInnerP (cfg : PCfg) (host : HostModel) (msg : GMessage) :
    GoM Participant Unit := fun p =>
  if msg.Vote.Instance < p.currentInstance then
    (p, Outputs.empty, .err (.wrap "message for past instance" .tooOld))
  else
    match p.gpbft with
    | some g =>
      if msg.Vote.Instance = p.currentInstance then
        match Instance.Receive cfg host cfg.fuel msg g with
        | (g1, o1, .ok _) =>
          match Participant.handleDecision host { p with gpbft := some g1 } with
          | (p2, o2, r) => (p2, o1.append o2, r)
        | (g1, o1, .err e) => ({ p with gpbft := some g1 }, o1, .err (.wrapPair .internalErr e))
        | (g1, o1, .panic m) => ({ p with gpbft := some g1 }, o1, .panic m)
      else ({ p with mqueue := messageQueue.Add msg p.mqueue }, Outputs.empty, .ok ())
    | none => ({ p with mqueue := messageQueue.Add msg p.mqueue }, Outputs.empty, .ok ())

/-- `Participant.ReceiveMessage` (participant.go line 110). -/
def Participant.ReceiveMessage (cfg : PCfg) (host : HostModel) (msg : GMessage) :
    GoM Participant Unit :=
  recoverWrap (Participant.receiveInnerP cfg host msg)

/-- The body of `Participant.ReceiveAlarm` (participant.go lines 144-152):
with no running instance the alarm begins a new one; otherwise it is
delivered to the instance (wrapping failures) and a possible decision is
handled. -/
def Participant.alarmInner (cfg : PCfg) (host : HostModel) : GoM Participant Unit :=
  fun p =>
  match p.gpbft with
  | none => Participant.beginInstance cfg host p
  | some g =>
    match Instance.ReceiveAlarmI cfg host cfg.fuel g with
    | (g1, o1, .ok _) =>
      match Participant.handleDecision host { p with gpbft := some g1 } with
      | (p2, o2, r) => (p2, o1.append o2, r)
    | (g1, o1, .err e) => ({ p with gpbft := some g1 }, o1, .err (.wrap "failed receiving alarm" e))
    | (g1, o1, .panic m) => ({ p with gpbft := some g1 }, o1, .panic m)

/-- `Participant.ReceiveAlarm` (participant.go line 139). -/
def Participant.ReceiveAlarm (cfg : PCfg) (host : HostModel) : GoM Participant Unit :=
  recoverWrap (Participant.alarmInner cfg host)

/-! ### Concrete states and example inputs used by the witnesses -/

/-- The state after `receiveSender` records a new sender `s` of power `p`. -/
def senderAdded (q : quorumState) (s : ActorID) (p : StoragePower) : quorumState :=
  { q with senders := q.senders ++ [s], sendersTotalPower := q.sendersTotalPower + p }

/-- A tiny concrete power table used by several witnesses: two members with
powers 3 and 2. -/
def exPT : PowerTable :=
  { Entries := [{ ID := 1, Power := 3, PubKey := [1] }, { ID := 2, Power := 2, PubKey := [2] }],
    Total := 5,
    Lookup := [(1, 0), (2, 1)] }

/-- A quorum state that has already heard from sender 1. -/
def exQSeen : quorumState :=
  { senders := [1], sendersTotalPower := 3, chainSupport := [],
    powerTable := exPT, receivedJustification := [] }

/-- Concrete tipsets and a two-tipset chain for the C5 counterexample. -/
def exTS0 : TipSet := { epoch := 0, key := [10], powerTableCommit := [] }

def exTS1 : TipSet := { epoch := 1, key := [11], powerTableCommit := [] }

def exChain2 : ECChain := [exTS0, exTS1]

/-- A fresh quorum state over the example power table. -/
def exQS0 : quorumState := newQuorumState exPT

/-- Whether a list of chains has two neighbouring entries of equal length. -/
def hasAdjEqLen : List ECChain → Prop
  | [] => False
  | [_] => False
  | a :: b :: t => a.length = b.length ∨ hasAdjEqLen (b :: t)

/-- Two singleton chain-support entries, both flagged with strong quorum, for
the C6 witness. -/
def exCS1 : ChainSupport :=
  { chain := [exTS0], power := 4, signatures := [], hasStrongQuorum := true, hasWeakQuorum := true }

def exCS2 : ChainSupport :=
  { chain := [exTS1], power := 4, signatures := [], hasStrongQuorum := true, hasWeakQuorum := true }

/-- A quorum state with two distinct strong-quorum values of equal length. -/
def exQC6 : quorumState :=
  { senders := [], sendersTotalPower := 0,
    chainSupport := [([[10]], exCS1), ([[11]], exCS2)],
    powerTable := exPT, receivedJustification := [] }

/-- A coherent support record: senders 1 (power 3) and 2 (power 2) support
the chain `[exTS0]`, total power 5 of 5 — a strong quorum. -/
def exCS3 : ChainSupport :=
  { chain := [exTS0], power := 5, signatures := [(1, some [77]), (2, some [78])],
    hasStrongQuorum := true, hasWeakQuorum := true }

def exQS3 : quorumState :=
  { senders := [1, 2], sendersTotalPower := 5, chainSupport := [([[10]], exCS3)],
    powerTable := exPT, receivedJustification := [] }

/-- A host whose cryptographic checks always succeed, for witnesses. -/
def exHost : HostModel :=
  { networkName := [1],
    now := 0,
    sign := fun _ _ => .ok [9],
    verify := fun _ _ _ => true,
    aggregate := fun _ _ => .ok [8],
    verifyAggregate := fun _ _ _ => true,
    getChainForInstance := fun _ => .ok [exTS0],
    getCommitteeForInstance := fun _ => .ok (exPT, []),
    receiveDecision := fun _ => 1 }

/-- A validation context over `exPT` with input base `exTS0`. -/
def exVCtx : VCtx :=
  { instanceID := 0, powerTable := exPT, beacon := [], baseCheck := some (some exTS0) }

/-- A well-formed QUALITY message from sender 1, without justification. -/
def exMsgQ : GMessage :=
  { Sender := 1,
    Vote := { Instance := 0, Round := 0, Step := QUALITY_PHASE, Value := [exTS0] },
    Signature := [1], Ticket := [], Justification := none }

/-- A justification payload used only to exercise the rejection branch. -/
def exJustC2 : Justification :=
  { Vote := { Instance := 0, Round := 0, Step := PREPARE_PHASE, Value := [exTS0] },
    Signers := [0], Signature := [3] }

/-- `exMsgQ` with a (superfluous) justification attached. -/
def exMsgQJ : GMessage :=
  { exMsgQ with Justification := some exJustC2 }

/-- A well-formed round-0 COMMIT message for a non-bottom value, without
justification. -/
def exMsgC : GMessage :=
  { Sender := 1,
    Vote := { Instance := 0, Round := 0, Step := COMMIT_PHASE, Value := [exTS0] },
    Signature := [1], Ticket := [], Justification := none }

/-- Configuration used by the witnesses: participant 1, constant synchrony
delay. -/
def exCfg : PCfg :=
  { id := 1, phaseDelay := fun _ => 10, maxLookaheadRounds := 5, initialInstance := 0,
    fuel := 20 }

/-- A PREPARE tracker in which senders 1 and 2 (total power 5 of 5) support
the chain `[exTS0]` — a strong quorum. -/
def exQS4p : quorumState :=
  { senders := [1, 2], sendersTotalPower := 5,
    chainSupport := [([[10]],
      { chain := [exTS0], power := 5, signatures := [(1, some [21]), (2, some [22])],
        hasStrongQuorum := true, hasWeakQuorum := true })],
    powerTable := exPT, receivedJustification := [] }

/-- Round state for the `claim_C4` witness. -/
def exRS4 : RoundState :=
  { converged := newConvergeState, prepared := exQS4p, committed := newQuorumState exPT }

/-- An instance in the PREPARE phase of round 0 whose PREPARE tracker has a
strong quorum for the proposal `[exTS0]`. -/
def exInst4 : Instance :=
  { instanceID := 0, input := [exTS0], powerTable := exPT, beacon := [],
    round := 0, phase := PREPARE_PHASE, phaseTimeout := 0, proposal := [exTS0],
    value := [], candidates := [[exTS0]], terminationValue := none, inbox := [],
    quality := newQuorumState exPT, rounds := [(0, exRS4)],
    decision := newQuorumState exPT }

/-- The list of messages queued for an instance and sender. -/
def mqList (q : messageQueue) (instID : Nat) (sender : ActorID) : List GMessage :=
  (lookupA ((lookupA q.messages instID).getD []) sender).getD []

/-- A QUALITY message from sender 1 already queued for future instance 5. -/
def exMsgQ5 : GMessage :=
  { Sender := 1,
    Vote := { Instance := 5, Round := 0, Step := QUALITY_PHASE, Value := [exTS0] },
    Signature := [1], Ticket := [], Justification := none }

/-- A queue with lookahead 2 holding `exMsgQ5`. -/
def exMq9 : messageQueue :=
  { maxRound := 2, messages := [(5, [(1, [exMsgQ5])])] }

/-- A round-1 PREPARE message from the same sender for instance 5 (within
the lookahead bound, not a duplicate). -/
def exMsg9b : GMessage :=
  { Sender := 1,
    Vote := { Instance := 5, Round := 1, Step := PREPARE_PHASE, Value := [exTS0] },
    Signature := [1], Ticket := [], Justification := none }

/-- An unjustified round-3 message for instance 5: beyond the lookahead
bound and spammable. -/
def exMsg9spam : GMessage :=
  { Sender := 2,
    Vote := { Instance := 5, Round := 3, Step := PREPARE_PHASE, Value := [exTS0] },
    Signature := [1], Ticket := [], Justification := none }

/-- A participant at current instance 3 with no running instance. -/
def exPart8 : Participant :=
  { currentInstance := 3, gpbft := none, committees := [],
    mqueue := newMessageQueue 5, finalised := none, terminatedDuringRound := 0 }

/-- A message for past instance 1. -/
def exMsgOld : GMessage :=
  { Sender := 1,
    Vote := { Instance := 1, Round := 0, Step := QUALITY_PHASE, Value := [exTS0] },
    Signature := [1], Ticket := [], Justification := none }

/-- A message for future instance 5. -/
def exMsgFut : GMessage :=
  { Sender := 1,
    Vote := { Instance := 5, Round := 0, Step := QUALITY_PHASE, Value := [exTS0] },
    Signature := [1], Ticket := [], Justification := none }

/-- An instance whose PREPARE tracker will dereference a nil power for
sender 9 (absent from the power table), panicking. -/
def exInstP : Instance :=
  { instanceID := 3, input := [exTS0], powerTable := exPT, beacon := [],
    round := 0, phase := PREPARE_PHASE, phaseTimeout := 100, proposal := [exTS0],
    value := [], candidates := [[exTS0]], terminationValue := none, inbox := [],
    quality := newQuorumState exPT, rounds := [(0, newRoundState exPT)],
    decision := newQuorumState exPT }

/-- A participant currently running `exInstP`. -/
def exPartP : Participant :=
  { currentInstance := 3, gpbft := some exInstP, committees := [],
    mqueue := newMessageQueue 5, finalised := none, terminatedDuringRound := 0 }

/-- A current-instance PREPARE message from the unknown sender 9, whose
processing panics inside the instance. -/
def exMsgPanic : GMessage :=
  { Sender := 9,
    Vote := { Instance := 3, Round := 0, Step := PREPARE_PHASE, Value := [exTS0] },
    Signature := [1], Ticket := [], Justification := none }

/-! ## Theorems

The claim theorems and their supporting lemmas.  Everything above this point
is the embedding; everything below proves properties of it. -/

/-- C1: for all non-negative integer powers `part` and `total`, the
strong-quorum predicate returns `true` iff `3·part > 2·total`; in particular
at the exact threshold `3·part = 2·total` it returns `false`. -/
theorem claim_C1 (part total : Nat) :
    (hasStrongQuorum part total = true ↔ 3 * part > 2 * total) ∧
      (3 * part = 2 * total → hasStrongQuorum part total = false) := by
  have h1 : ∀ p t : Nat, hasStrongQuorum p t = decide (2 * t / 3 < p) := fun p t => rfl
  rw [h1]
  simp only [decide_eq_true_eq, decide_eq_false_iff_not, not_lt, gt_iff_lt]
  omega

/-- Closed-form instantiation of `claim_C1` at a concrete boundary input. -/
theorem claim_C1_witness :
    (hasStrongQuorum 5 7 = true ↔ 3 * 5 > 2 * 7) ∧
      (3 * 2 = 2 * 3 → hasStrongQuorum 2 3 = false) :=
  ⟨(claim_C1 5 7).1, (claim_C1 2 3).2⟩

/-- `receiveInner` never touches the sender set. -/
theorem receiveInner_senders (s : ActorID) (v : ECChain) (p : StoragePower)
    (sig : Option Bytes) (q : quorumState) :
    ((quorumState.receiveInner s v p sig q).1).senders = q.senders := by
  unfold quorumState.receiveInner
  dsimp only
  split <;> rfl

/-- `receiveEachLoop` never touches the sender set. -/
theorem receiveEachLoop_senders (s : ActorID) (c : ECChain) (p : StoragePower)
    (js : List Nat) (q : quorumState) :
    ((quorumState.receiveEachLoop s c p js q).1).senders = q.senders := by
  induction js generalizing q with
  | nil => rfl
  | cons j rest ih =>
    unfold quorumState.receiveEachLoop
    rcases hri : quorumState.receiveInner s (ECChain.Prefix c (j + 1)) p none q with ⟨q1, o1, r1⟩
    have h1 : q1.senders = q.senders := by
      have h := receiveInner_senders s (ECChain.Prefix c (j + 1)) p none q
      rw [hri] at h; exact h
    cases r1 with
    | ok a =>
      rcases hrl : quorumState.receiveEachLoop s c p rest q1 with ⟨q2, o2, r2⟩
      have h2 : q2.senders = q1.senders := by
        have h := ih q1
        rw [hrl] at h; exact h
      simp only [hri, hrl]
      exact h2.trans h1
    | err e => simp only [hri]; exact h1
    | panic msg => simp only [hri]; exact h1

/-- When a sender has already been seen, `receiveSender` is a no-op returning
`(0, false)`. -/
theorem receiveSender_seen (q : quorumState) (s : ActorID)
    (hm : s ∈ q.senders) :
    quorumState.receiveSender s q = (q, Outputs.empty, .ok (0, false)) := by
  simp [quorumState.receiveSender, hm]

/-- When a sender is new and present in the power table, `receiveSender`
records it and its power. -/
theorem receiveSender_new (q : quorumState) (s : ActorID) (p : StoragePower) (pk : Bytes)
    (hm : s ∉ q.senders) (hg : q.powerTable.Get s = some (p, pk)) :
    quorumState.receiveSender s q = (senderAdded q s p, Outputs.empty, .ok (p, true)) := by
  simp [quorumState.receiveSender, hm, hg, senderAdded]

/-- When a sender is new but absent from the power table, `receiveSender`
panics (the Go code dereferences a nil power on the `big.Int` addition). -/
theorem receiveSender_missing (q : quorumState) (s : ActorID)
    (hm : s ∉ q.senders) (hg : q.powerTable.Get s = none) :
    quorumState.receiveSender s q =
      ({ q with senders := q.senders ++ [s] }, Outputs.empty, .panic "nil sender power") := by
  simp [quorumState.receiveSender, hm, hg]

/-- C7: senders are latched: a first `Receive`/`ReceiveEachPrefix` records the
sender, and for a sender from which a value has already been received both
operations return the state entirely unchanged — same senders, total sender
power, per-chain support powers and signatures, and quorum flags — with no
effects and no error. -/
theorem claim_C7 (q : quorumState) (s : ActorID) :
    (∀ v sig, s ∈ ((quorumState.Receive s v sig q).1).senders) ∧
      (∀ v, s ∈ ((quorumState.ReceiveEachPrefix s v q).1).senders) ∧
      (s ∈ q.senders →
        (∀ v sig, quorumState.Receive s v sig q = (q, Outputs.empty, .ok ())) ∧
        (∀ v, quorumState.ReceiveEachPrefix s v q = (q, Outputs.empty, .ok ()))) := by
  by_cases hc : s ∈ q.senders
  · refine ⟨?_, ?_, fun _ => ⟨?_, ?_⟩⟩
    · intro v sig
      simp only [quorumState.Receive, receiveSender_seen q s hc]
      exact hc
    · intro v
      simp only [quorumState.ReceiveEachPrefix, receiveSender_seen q s hc]
      exact hc
    · intro v sig
      simp only [quorumState.Receive, receiveSender_seen q s hc]
    · intro v
      simp only [quorumState.ReceiveEachPrefix, receiveSender_seen q s hc]
  · have hmem : ∀ l : List ActorID, s ∈ l ++ [s] :=
      fun l => List.mem_append_right _ (List.mem_singleton.mpr rfl)
    refine ⟨?_, ?_, fun h => absurd h hc⟩
    · intro v sig
      rcases hg : q.powerTable.Get s with _ | ⟨p, pk⟩
      · simp only [quorumState.Receive, receiveSender_missing q s hc hg]
        exact hmem _
      · simp only [quorumState.Receive, receiveSender_new q s p pk hc hg]
        rcases hri : quorumState.receiveInner s v p (some sig) (senderAdded q s p)
          with ⟨q2, o2, r2⟩
        have h2 : q2.senders = (senderAdded q s p).senders := by
          have h := receiveInner_senders s v p (some sig) (senderAdded q s p)
          rw [hri] at h; exact h
        simp only [hri]
        rw [h2]
        exact hmem _
    · intro v
      rcases hg : q.powerTable.Get s with _ | ⟨p, pk⟩
      · simp only [quorumState.ReceiveEachPrefix, receiveSender_missing q s hc hg]
        exact hmem _
      · simp only [quorumState.ReceiveEachPrefix, receiveSender_new q s p pk hc hg]
        rcases hrl : quorumState.receiveEachLoop s v p
            (List.range (ECChain.Suffix v).length) (senderAdded q s p) with ⟨q2, o2, r2⟩
        have h2 : q2.senders = (senderAdded q s p).senders := by
          have h := receiveEachLoop_senders s v p
            (List.range (ECChain.Suffix v).length) (senderAdded q s p)
          rw [hrl] at h; exact h
        simp only [hrl]
        rw [h2]
        exact hmem _

/-- Witness for `claim_C7`: at a concrete state that has already heard from
sender 1, a repeated `Receive` and `ReceiveEachPrefix` are exact no-ops. -/
theorem claim_C7_witness :
    quorumState.Receive 1 [] [7] exQSeen = (exQSeen, Outputs.empty, .ok ()) ∧
      quorumState.ReceiveEachPrefix 1 [] exQSeen = (exQSeen, Outputs.empty, .ok ()) := by
  have h := (claim_C7 exQSeen 1).2.2 (by decide)
  exact ⟨h.1 [] [7], h.2 []⟩

/-- Full characterisation of one `receiveInner` call when the sender has no
recorded signature under the value's key: the vote is recorded under that key
and nothing else changes. -/
theorem receiveInner_spec (s : ActorID) (v : ECChain) (p : StoragePower)
    (sig : Option Bytes) (q : quorumState)
    (hsig : supportSig q (ECChain.Key v) s = none) :
    ∃ q1, quorumState.receiveInner s v p sig q = (q1, Outputs.empty, .ok ()) ∧
      q1.senders = q.senders ∧
      q1.sendersTotalPower = q.sendersTotalPower ∧
      q1.powerTable = q.powerTable ∧
      q1.receivedJustification = q.receivedJustification ∧
      supportPower q1 (ECChain.Key v) = supportPower q (ECChain.Key v) + p ∧
      supportSig q1 (ECChain.Key v) s = some sig ∧
      (∀ key, key ≠ ECChain.Key v →
        lookupA q1.chainSupport key = lookupA q.chainSupport key) := by
  rcases hls : lookupA q.chainSupport (ECChain.Key v) with _ | cs
  · have hnone : supportSig q (ECChain.Key v) s = none := hsig
    unfold quorumState.receiveInner
    dsimp only
    rw [hls]
    dsimp only
    rw [show lookupA ([] : List (ActorID × Option Bytes)) s = none from rfl]
    refine ⟨_, rfl, rfl, rfl, rfl, rfl, ?_, ?_, ?_⟩
    · simp [supportPower, lookupA_updateA_self, hls]
    · simp [supportSig, lookupA_updateA_self, lookupA, updateA]
    · intro key hk
      exact lookupA_updateA_ne _ _ _ _ hk
  · have hcs : lookupA cs.signatures s = none := by
      have h := hsig
      unfold supportSig at h
      rw [hls] at h
      exact h
    unfold quorumState.receiveInner
    dsimp only
    rw [hls]
    dsimp only
    rw [hcs]
    refine ⟨_, rfl, rfl, rfl, rfl, rfl, ?_, ?_, ?_⟩
    · simp [supportPower, lookupA_updateA_self, hls]
    · simp [supportSig, lookupA_updateA_self, hcs]
    · intro key hk
      exact lookupA_updateA_ne _ _ _ _ hk

theorem supportPower_congr {q1 q2 : quorumState} {k : ChainKey}
    (h : lookupA q1.chainSupport k = lookupA q2.chainSupport k) :
    supportPower q1 k = supportPower q2 k := by
  unfold supportPower; rw [h]

theorem supportSig_congr {q1 q2 : quorumState} {k : ChainKey} (s : ActorID)
    (h : lookupA q1.chainSupport k = lookupA q2.chainSupport k) :
    supportSig q1 k s = supportSig q2 k s := by
  unfold supportSig; rw [h]

/-- Full characterisation of `receiveEachLoop` over indices with pairwise
distinct prefix keys, none of which has a vote from the sender yet. -/
theorem receiveEachLoop_spec (s : ActorID) (c : ECChain) (p : StoragePower)
    (js : List Nat) (q : quorumState)
    (hnd : (js.map (fun j => ECChain.Key (ECChain.Prefix c (j + 1)))).Nodup)
    (hs : ∀ j ∈ js, supportSig q (ECChain.Key (ECChain.Prefix c (j + 1))) s = none) :
    ∃ q2, quorumState.receiveEachLoop s c p js q = (q2, Outputs.empty, .ok ()) ∧
      q2.senders = q.senders ∧
      q2.sendersTotalPower = q.sendersTotalPower ∧
      q2.powerTable = q.powerTable ∧
      q2.receivedJustification = q.receivedJustification ∧
      (∀ j ∈ js, supportPower q2 (ECChain.Key (ECChain.Prefix c (j + 1))) =
          supportPower q (ECChain.Key (ECChain.Prefix c (j + 1))) + p ∧
        supportSig q2 (ECChain.Key (ECChain.Prefix c (j + 1))) s = some none) ∧
      (∀ key, (∀ j ∈ js, key ≠ ECChain.Key (ECChain.Prefix c (j + 1))) →
        lookupA q2.chainSupport key = lookupA q.chainSupport key) := by
  induction js generalizing q with
  | nil =>
    exact ⟨q, rfl, rfl, rfl, rfl, rfl, by simp, fun key _ => rfl⟩
  | cons j rest ih =>
    obtain ⟨q1, hq1, e1, e2, e3, e4, hp1, hs1, hother1⟩ :=
      receiveInner_spec s (ECChain.Prefix c (j + 1)) p none q (hs j (List.mem_cons_self _ _))
    have hnd1 : (ECChain.Key (ECChain.Prefix c (j + 1)) ::
        rest.map (fun j2 => ECChain.Key (ECChain.Prefix c (j2 + 1)))).Nodup := by
      rw [List.map_cons] at hnd
      exact hnd
    have hjnot : ECChain.Key (ECChain.Prefix c (j + 1)) ∉
        rest.map (fun j2 => ECChain.Key (ECChain.Prefix c (j2 + 1))) :=
      (List.nodup_cons.mp hnd1).1
    have hndrest : (rest.map (fun j2 => ECChain.Key (ECChain.Prefix c (j2 + 1)))).Nodup :=
      (List.nodup_cons.mp hnd1).2
    have hkne : ∀ j2 ∈ rest,
        ECChain.Key (ECChain.Prefix c (j2 + 1)) ≠ ECChain.Key (ECChain.Prefix c (j + 1)) := by
      intro j2 hj2 he
      exact hjnot (he ▸ List.mem_map_of_mem _ hj2)
    have hsrest : ∀ j2 ∈ rest,
        supportSig q1 (ECChain.Key (ECChain.Prefix c (j2 + 1))) s = none := by
      intro j2 hj2
      rw [supportSig_congr s (hother1 _ (hkne j2 hj2))]
      exact hs j2 (List.mem_cons_of_mem _ hj2)
    obtain ⟨q2, hq2, f1, f2, f3, f4, hp2, hother2⟩ := ih q1 hndrest hsrest
    have hselfne : ∀ j2 ∈ rest,
        ECChain.Key (ECChain.Prefix c (j + 1)) ≠ ECChain.Key (ECChain.Prefix c (j2 + 1)) :=
      fun j2 hj2 he => hkne j2 hj2 he.symm
    have hkeep : lookupA q2.chainSupport (ECChain.Key (ECChain.Prefix c (j + 1))) =
        lookupA q1.chainSupport (ECChain.Key (ECChain.Prefix c (j + 1))) :=
      hother2 _ hselfne
    refine ⟨q2, ?_, f1.trans e1, f2.trans e2, f3.trans e3, f4.trans e4, ?_, ?_⟩
    · unfold quorumState.receiveEachLoop
      rw [hq1]
      dsimp only
      rw [hq2]
      rfl
    · intro j2 hj2
      rcases List.mem_cons.mp hj2 with he | hr
      · subst he
        exact ⟨(supportPower_congr hkeep).trans hp1, (supportSig_congr s hkeep).trans hs1⟩
      · obtain ⟨g1, g2⟩ := hp2 j2 hr
        refine ⟨?_, g2⟩
        rw [g1, supportPower_congr (hother1 _ (hkne j2 hr))]
    · intro key hk
      have h1 := hother2 key (fun j2 hj2 => hk j2 (List.mem_cons_of_mem _ hj2))
      have h2 := hother1 key (hk j (List.mem_cons_self _ _))
      exact h1.trans h2

/-- Every prefix key `Key (Prefix c (j+1))` for `j < len(c) - 1` has length
`j + 2`. -/
theorem prefixKey_length (c : ECChain) (j : Nat) (hj : j < c.length - 1) :
    (ECChain.Key (ECChain.Prefix c (j + 1))).length = j + 2 := by
  simp only [ECChain.Key, ECChain.Prefix, List.length_map, List.length_take]
  omega

/-- C5, amended: `ReceiveEachPrefix(s, c)` for a fresh sender `s` records one
independent vote by `s`, with no signature stored (a nil signature), for
exactly the prefixes `Prefix(j+1)` with `j < len(c) - 1` — the prefixes of
length 2 to `len(c)`, which include `c` itself and exclude the length-1 base
prefix — and changes the support of no other value. -/
theorem claim_C5_amended (q : quorumState) (s : ActorID) (c : ECChain)
    (p : StoragePower) (pk : Bytes)
    (hm : s ∉ q.senders) (hg : q.powerTable.Get s = some (p, pk))
    (hsig : ∀ key, supportSig q key s = none) :
    ∃ q2, quorumState.ReceiveEachPrefix s c q = (q2, Outputs.empty, .ok ()) ∧
      q2.senders = q.senders ++ [s] ∧
      q2.sendersTotalPower = q.sendersTotalPower + p ∧
      (∀ j < c.length - 1,
        supportPower q2 (ECChain.Key (ECChain.Prefix c (j + 1))) =
          supportPower q (ECChain.Key (ECChain.Prefix c (j + 1))) + p ∧
        supportSig q2 (ECChain.Key (ECChain.Prefix c (j + 1))) s = some none) ∧
      (∀ key, (∀ j < c.length - 1, key ≠ ECChain.Key (ECChain.Prefix c (j + 1))) →
        lookupA q2.chainSupport key = lookupA q.chainSupport key) := by
  have hlen : (ECChain.Suffix c).length = c.length - 1 := by
    simp [ECChain.Suffix]
  have hnd : ((List.range ((ECChain.Suffix c).length)).map
      (fun j => ECChain.Key (ECChain.Prefix c (j + 1)))).Nodup := by
    apply List.Nodup.map_on
    · intro x hx y hy hxy
      rw [List.mem_range, hlen] at hx hy
      have hx2 := prefixKey_length c x hx
      have hy2 := prefixKey_length c y hy
      have hxy2 : x + 2 = y + 2 := by rw [← hx2, ← hy2, hxy]
      omega
    · exact List.nodup_range _
  have hsj : ∀ j ∈ List.range ((ECChain.Suffix c).length),
      supportSig (senderAdded q s p) (ECChain.Key (ECChain.Prefix c (j + 1))) s = none :=
    fun j _ => hsig _
  obtain ⟨q2, hq2, e1, e2, _, _, hp, hother⟩ :=
    receiveEachLoop_spec s c p (List.range ((ECChain.Suffix c).length))
      (senderAdded q s p) hnd hsj
  refine ⟨q2, ?_, ?_, ?_, ?_, ?_⟩
  · unfold quorumState.ReceiveEachPrefix
    rw [receiveSender_new q s p pk hm hg]
    dsimp only
    rw [hq2]
    rfl
  · exact e1
  · exact e2
  · intro j hj
    have hjm : j ∈ List.range ((ECChain.Suffix c).length) := by
      rw [List.mem_range, hlen]; exact hj
    exact hp j hjm
  · intro key hk
    exact hother key (fun j hjm => hk j (by rw [List.mem_range, hlen] at hjm; exact hjm))

/-- C5, counterexample to the claim as stated: receiving the two-tipset chain
`[exTS0, exTS1]` from fresh sender 1 records NO vote for the length-1 base
prefix (the claim says it gets a vote) and DOES record a vote for the full
chain, which is not a proper prefix (the claim says no other value gets
one). -/
theorem claim_C5_cex :
    lookupA ((quorumState.ReceiveEachPrefix 1 exChain2 exQS0).1).chainSupport
        (ECChain.Key (ECChain.BaseChain exChain2)) = none ∧
      (lookupA ((quorumState.ReceiveEachPrefix 1 exChain2 exQS0).1).chainSupport
        (ECChain.Key exChain2)).isSome = true := by
  decide

/-- Witness for `claim_C5_amended` at the concrete counterexample input. -/
theorem claim_C5_witness :
    ∃ q2, quorumState.ReceiveEachPrefix 1 exChain2 exQS0 = (q2, Outputs.empty, .ok ()) ∧
      supportSig q2 (ECChain.Key exChain2) 1 = some none := by
  obtain ⟨q2, h1, _, _, h4, _⟩ :=
    claim_C5_amended exQS0 1 exChain2 3 [1] (by decide) (by decide) (fun _ => rfl)
  exact ⟨q2, h1, (h4 0 (by decide)).2⟩

/-- A lookup hit is a member of the association list. -/
theorem lookupA_mem {κ ν : Type} [DecidableEq κ] {l : List (κ × ν)} {k : κ} {v : ν}
    (h : lookupA l k = some v) : (k, v) ∈ l := by
  induction l with
  | nil => cases h
  | cons hd tl ih =>
    obtain ⟨k0, v0⟩ := hd
    by_cases h0 : k0 = k
    · subst h0
      rw [lookupA, if_pos rfl] at h
      cases h
      exact List.mem_cons_self _ _
    · rw [lookupA, if_neg h0] at h
      exact List.mem_cons_of_mem _ (ih h)

/-- A list holding two distinct elements has length at least 2. -/
theorem two_mem_le_length {α : Type} {a b : α} {s : List α}
    (ha : a ∈ s) (hb : b ∈ s) (hab : a ≠ b) : 2 ≤ s.length := by
  match s with
  | [] => cases ha
  | [x] =>
    rw [List.mem_singleton] at ha hb
    exact absurd (ha.trans hb.symm) hab
  | x :: y :: t => simp only [List.length_cons]; omega

/-- The loop of `FindStrongQuorumValue` panics as soon as it sees a second
strong-quorum entry. -/
theorem fsqvLoop_panic (l : List (ChainKey × ChainSupport)) : ∀ (found : Bool) (qv : ECChain),
    (if found then 1 else 2) ≤ l.countP (fun p => p.2.hasStrongQuorum) →
    fsqvLoop found qv l = .panic "multiple chains with strong quorum" := by
  induction l with
  | nil =>
    intro found qv h
    rw [List.countP_nil] at h
    cases found with
    | false => exact absurd h (by decide)
    | true => exact absurd h (by decide)
  | cons hd tl ih =>
    intro found qv h
    obtain ⟨k, cp⟩ := hd
    rw [List.countP_cons] at h
    by_cases hcp : cp.hasStrongQuorum = true
    · rw [if_pos hcp] at h
      cases found with
      | true => simp [fsqvLoop, hcp]
      | false =>
        have htl : 1 ≤ tl.countP (fun p => p.2.hasStrongQuorum) := by
          change 2 ≤ tl.countP (fun p => p.2.hasStrongQuorum) + 1 at h
          omega
        simp only [fsqvLoop, hcp, if_true, if_false]
        exact ih true cp.chain htl
    · rw [if_neg hcp, add_zero] at h
      simp only [fsqvLoop]
      rw [if_neg hcp]
      exact ih found qv h

/-- The duplicate-length scan of `ListStrongQuorumValues` panics whenever the
list has two neighbouring entries of equal length. -/
theorem lsqCheck_panic (xs : List ECChain) : ∀ prev : Nat,
    (hasAdjEqLen xs ∨ (∃ b t, xs = b :: t ∧ b.length = prev)) →
    lsqCheck prev xs = .panic "multiple chains of equal length with strong quorum" := by
  induction xs with
  | nil =>
    intro prev h
    rcases h with h | ⟨b, t, ht, _⟩
    · cases h
    · cases ht
  | cons a rest ih =>
    intro prev h
    by_cases ha : a.length = prev
    · simp [lsqCheck, ha]
    · have hadj : hasAdjEqLen (a :: rest) := by
        rcases h with h | ⟨b, t, ht, hb⟩
        · exact h
        · cases ht
          exact absurd hb ha
      rw [lsqCheck, if_neg ha]
      cases rest with
      | nil => cases hadj
      | cons b t =>
        rcases hadj with hab | hrest
        · exact ih a.length (Or.inr ⟨b, t, rfl, hab.symm⟩)
        · exact ih a.length (Or.inl hrest)

/-- In a list sorted by descending length, two entries of length `L` (counted
with multiplicity) force two neighbouring entries of equal length. -/
theorem sorted_two_len_adj (xs : List ECChain) (L : Nat) :
    List.Sorted chainLenGE xs → 2 ≤ xs.countP (fun v => v.length = L) →
    hasAdjEqLen xs := by
  induction xs with
  | nil => intro _ h; simp [List.countP_nil] at h
  | cons a rest ih =>
    intro hs h
    rw [List.countP_cons] at h
    have hsr : List.Sorted chainLenGE rest := (List.sorted_cons.mp hs).2
    have hhd : ∀ b ∈ rest, chainLenGE a b := (List.sorted_cons.mp hs).1
    by_cases haL : a.length = L
    · have hr1 : 0 < rest.countP (fun v => v.length = L) := by
        rw [haL, if_pos (by simp : decide (L = L) = true)] at h
        omega
      obtain ⟨b, hbmem, hbL⟩ := List.countP_pos_iff.mp hr1
      have hbL2 : b.length = L := by simpa using hbL
      cases rest with
      | nil => cases hbmem
      | cons b0 t =>
        have h1 : b0.length ≤ a.length := hhd b0 (List.mem_cons_self _ _)
        have h2 : b.length ≤ b0.length := by
          rcases List.mem_cons.mp hbmem with he | ht
          · subst he; exact le_refl _
          · exact (List.sorted_cons.mp hsr).1 b ht
        have hb0 : b0.length = a.length := by omega
        exact Or.inl hb0.symm
    · have hr2 : 2 ≤ rest.countP (fun v => v.length = L) := by
        rw [if_neg (by simpa using haL : ¬ (decide (a.length = L) = true)), add_zero] at h
        exact h
      have hadj := ih hsr hr2
      cases rest with
      | nil => simp [List.countP_nil] at hr2
      | cons b0 t => exact Or.inr hadj

/-- C6: two distinct values (distinct chain keys) holding strong quorum at
once make `FindStrongQuorumValue` panic, and two strong-quorum chains of
equal length make `ListStrongQuorumValues` panic; neither condition is
silently swallowed into an `ok` or `err` result. -/
theorem claim_C6 (q : quorumState) (k1 k2 : ChainKey) (cs1 cs2 : ChainSupport)
    (h1 : lookupA q.chainSupport k1 = some cs1) (h2 : lookupA q.chainSupport k2 = some cs2)
    (hne : k1 ≠ k2) (hq1 : cs1.hasStrongQuorum = true) (hq2 : cs2.hasStrongQuorum = true) :
    quorumState.FindStrongQuorumValue q = .panic "multiple chains with strong quorum" ∧
      (cs1.chain.length = cs2.chain.length →
        quorumState.ListStrongQuorumValues q =
          .panic "multiple chains of equal length with strong quorum") := by
  have hm1 : (k1, cs1) ∈ q.chainSupport := lookupA_mem h1
  have hm2 : (k2, cs2) ∈ q.chainSupport := lookupA_mem h2
  have hne2 : (k1, cs1) ≠ (k2, cs2) := fun he => hne (congrArg Prod.fst he)
  have hf1 : (k1, cs1) ∈ q.chainSupport.filter (fun p => p.2.hasStrongQuorum) :=
    List.mem_filter.mpr ⟨hm1, hq1⟩
  have hf2 : (k2, cs2) ∈ q.chainSupport.filter (fun p => p.2.hasStrongQuorum) :=
    List.mem_filter.mpr ⟨hm2, hq2⟩
  constructor
  · have hc : 2 ≤ (q.chainSupport.filter (fun p => p.2.hasStrongQuorum)).length :=
      two_mem_le_length hf1 hf2 hne2
    have hc2 : 2 ≤ q.chainSupport.countP (fun p => p.2.hasStrongQuorum) := by
      rw [List.countP_eq_length_filter]
      exact hc
    exact fsqvLoop_panic q.chainSupport false [] hc2
  · intro hl
    have hfQ1 : (k1, cs1) ∈ (q.chainSupport.filter (fun p => p.2.hasStrongQuorum)).filter
        (fun p => p.2.chain.length = cs1.chain.length) :=
      List.mem_filter.mpr ⟨hf1, by simp⟩
    have hfQ2 : (k2, cs2) ∈ (q.chainSupport.filter (fun p => p.2.hasStrongQuorum)).filter
        (fun p => p.2.chain.length = cs1.chain.length) :=
      List.mem_filter.mpr ⟨hf2, by simp [hl]⟩
    have hcQ : 2 ≤ ((q.chainSupport.filter (fun p => p.2.hasStrongQuorum)).filter
        (fun p => p.2.chain.length = cs1.chain.length)).length :=
      two_mem_le_length hfQ1 hfQ2 hne2
    have hcount : 2 ≤ ((q.chainSupport.filter (fun p => p.2.hasStrongQuorum)).map
        (fun p => p.2.chain)).countP (fun v => v.length = cs1.chain.length) := by
      rw [List.countP_map]
      rw [show ((fun v : ECChain => decide (v.length = cs1.chain.length)) ∘
          (fun p : ChainKey × ChainSupport => p.2.chain)) =
          (fun p : ChainKey × ChainSupport => decide (p.2.chain.length = cs1.chain.length))
        from rfl]
      rw [List.countP_eq_length_filter]
      exact hcQ
    have hsorted : List.Sorted chainLenGE (List.insertionSort chainLenGE
        ((q.chainSupport.filter (fun p => p.2.hasStrongQuorum)).map (fun p => p.2.chain))) :=
      List.sorted_insertionSort chainLenGE _
    have hcount2 : 2 ≤ (List.insertionSort chainLenGE
        ((q.chainSupport.filter (fun p => p.2.hasStrongQuorum)).map
          (fun p => p.2.chain))).countP (fun v => v.length = cs1.chain.length) := by
      rw [(List.perm_insertionSort chainLenGE _).countP_eq]
      exact hcount
    have hadj := sorted_two_len_adj _ cs1.chain.length hsorted hcount2
    have hpanic := lsqCheck_panic _ 0 (Or.inl hadj)
    unfold quorumState.ListStrongQuorumValues
    dsimp only
    rw [hpanic]

/-- Witness for `claim_C6` at the concrete two-strong-values state. -/
theorem claim_C6_witness :
    quorumState.FindStrongQuorumValue exQC6 = .panic "multiple chains with strong quorum" ∧
      quorumState.ListStrongQuorumValues exQC6 =
        .panic "multiple chains of equal length with strong quorum" := by
  have h := claim_C6 exQC6 [[10]] [[11]] exCS1 exCS2 (by decide) (by decide)
    (by decide) (by decide) (by decide)
  exact ⟨h.1, h.2 (by decide)⟩

/-- `hasStrongQuorum` is monotone in the power portion. -/
theorem hasStrongQuorum_mono {a b T : Nat} (hab : a ≤ b)
    (h : hasStrongQuorum a T = true) : hasStrongQuorum b T = true := by
  have h1 : ∀ x t : Nat, hasStrongQuorum x t = decide (2 * t / 3 < x) := fun _ _ => rfl
  rw [h1] at h ⊢
  simp only [decide_eq_true_eq] at h ⊢
  omega

/-- The accumulation loop of `FindStrongQuorumFor`, characterised: starting
below the threshold, it stops at the first prefix of the signer list whose
accumulated power is a strong quorum (and finds one exactly when the whole
list crosses the threshold), never panicking on in-range indices. -/
theorem fsqWalk_run (pt : PowerTable) (sigs : List (ActorID × Option Bytes)) :
    ∀ (l taken : List Nat) (acc : Nat) (pks : List Bytes) (ss : List (Option Bytes)),
    (∀ i ∈ l, i < pt.Entries.length) →
    hasStrongQuorum acc pt.Total = false →
    ((hasStrongQuorum (acc + (l.map (powAt pt)).sum) pt.Total = true →
      ∃ n qr, 0 < n ∧ n ≤ l.length ∧
        fsqWalk pt sigs l taken acc pks ss = .ok (some qr) ∧
        qr.Signers = taken ++ l.take n ∧
        hasStrongQuorum (acc + ((l.take n).map (powAt pt)).sum) pt.Total = true ∧
        (∀ m < n, hasStrongQuorum (acc + ((l.take m).map (powAt pt)).sum) pt.Total = false)) ∧
     (hasStrongQuorum (acc + (l.map (powAt pt)).sum) pt.Total = false →
      fsqWalk pt sigs l taken acc pks ss = .ok none)) := by
  intro l
  induction l with
  | nil =>
    intro taken acc pks ss _ hacc
    constructor
    · intro h
      rw [List.map_nil, List.sum_nil, Nat.add_zero] at h
      rw [h] at hacc
      cases hacc
    · intro _
      rfl
  | cons i rest ih =>
    intro taken acc pks ss hvalid hacc
    have hi : i < pt.Entries.length := hvalid i (List.mem_cons_self _ _)
    have hget : pt.Entries[i]? = some pt.Entries[i] := List.getElem?_eq_getElem hi
    have hpow : powAt pt i = pt.Entries[i].Power := by
      unfold powAt
      rw [hget]
    have hvrest : ∀ j ∈ rest, j < pt.Entries.length :=
      fun j hj => hvalid j (List.mem_cons_of_mem _ hj)
    by_cases hsq : hasStrongQuorum (acc + pt.Entries[i].Power) pt.Total = true
    · constructor
      · intro _
        refine ⟨1, ⟨taken ++ [i], pks ++ [pt.Entries[i].PubKey],
          ss ++ [(lookupA sigs pt.Entries[i].ID).getD none]⟩, ?_, ?_, ?_, rfl, ?_, ?_⟩
        · omega
        · simp
        · unfold fsqWalk
          rw [hget]
          dsimp only
          rw [if_pos hsq]
        · rw [show (i :: rest).take 1 = [i] from rfl]
          rw [show ([i].map (powAt pt)).sum = powAt pt i by simp]
          rw [hpow]
          exact hsq
        · intro m hm
          interval_cases m
          rw [show (i :: rest).take 0 = [] from rfl]
          rw [List.map_nil, List.sum_nil, Nat.add_zero]
          exact hacc
      · intro hfin
        exfalso
        have hle : acc + pt.Entries[i].Power ≤ acc + ((i :: rest).map (powAt pt)).sum := by
          rw [List.map_cons, List.sum_cons, hpow]
          omega
        rw [hasStrongQuorum_mono hle hsq] at hfin
        exact absurd hfin (by decide)
    · have hsq0 : hasStrongQuorum (acc + pt.Entries[i].Power) pt.Total = false :=
        eq_false_of_ne_true hsq
      obtain ⟨ihA, ihB⟩ := ih (taken ++ [i]) (acc + pt.Entries[i].Power)
        (pks ++ [pt.Entries[i].PubKey]) (ss ++ [(lookupA sigs pt.Entries[i].ID).getD none])
        hvrest hsq0
      have hshift : ∀ xs : List Nat,
          acc + ((i :: xs).map (powAt pt)).sum
            = acc + pt.Entries[i].Power + (xs.map (powAt pt)).sum := by
        intro xs
        rw [List.map_cons, List.sum_cons, hpow]
        omega
      have hwalk : fsqWalk pt sigs (i :: rest) taken acc pks ss =
          fsqWalk pt sigs rest (taken ++ [i]) (acc + pt.Entries[i].Power)
            (pks ++ [pt.Entries[i].PubKey])
            (ss ++ [(lookupA sigs pt.Entries[i].ID).getD none]) := by
        conv_lhs => rw [fsqWalk]
        rw [hget]
        dsimp only
        rw [if_neg hsq]
      constructor
      · intro hfin
        rw [hshift rest] at hfin
        obtain ⟨n, qr, hn0, hnle, hrun, hsig, hstop, hbefore⟩ := ihA hfin
        refine ⟨n + 1, qr, ?_, ?_, ?_, ?_, ?_, ?_⟩
        · omega
        · simp only [List.length_cons]
          omega
        · rw [hwalk]; exact hrun
        · rw [hsig, List.take_succ_cons]
          rw [List.append_assoc]
          rfl
        · rw [List.take_succ_cons, hshift (rest.take n)]
          exact hstop
        · intro m hm
          cases m with
          | zero =>
            rw [show (i :: rest).take 0 = [] from rfl]
            rw [List.map_nil, List.sum_nil, Nat.add_zero]
            exact hacc
          | succ m2 =>
            rw [List.take_succ_cons, hshift (rest.take m2)]
            exact hbefore m2 (by omega)
      · intro hfin
        rw [hshift rest] at hfin
        rw [hwalk]
        exact ihB hfin

/-- A sublist of a descending-sorted `Nat` list sums to no more than the same
number of leading elements. -/
theorem sublist_sum_le_take : ∀ (ys xs : List Nat), List.Sublist ys xs →
    List.Sorted (fun a b : Nat => b ≤ a) xs → ys.sum ≤ (xs.take ys.length).sum := by
  intro ys xs h
  induction h with
  | slnil =>
    intro _
    simp
  | @cons l₁ l₂ a h ih =>
    intro hsort
    have hs2 : List.Sorted (fun a b : Nat => b ≤ a) l₂ := (List.sorted_cons.mp hsort).2
    have hha : ∀ b ∈ l₂, b ≤ a := (List.sorted_cons.mp hsort).1
    have ihv := ih hs2
    rcases l₁ with _ | ⟨y, t⟩
    · simp
    · rw [List.length_cons] at ihv ⊢
      rw [List.take_succ_cons, List.sum_cons, List.sum_cons]
      rw [List.sum_cons] at ihv
      by_cases hlen : t.length + 1 ≤ l₂.length
      · have hsucc : (l₂.take (t.length + 1)).sum
            = (l₂.take t.length).sum + l₂.get ⟨t.length, by omega⟩ :=
          List.sum_take_succ _ _ _
        have hgle : l₂.get ⟨t.length, by omega⟩ ≤ a := hha _ (l₂.get_mem _ _)
        omega
      · have h1 : l₂.take (t.length + 1) = l₂ := List.take_of_length_le (by omega)
        have h2 : l₂.take t.length = l₂ := List.take_of_length_le (by omega)
        rw [h1] at ihv
        rw [h2]
        omega
  | @cons₂ l₁ l₂ a h ih =>
    intro hsort
    have hs2 : List.Sorted (fun a b : Nat => b ≤ a) l₂ := (List.sorted_cons.mp hsort).2
    have ihv := ih hs2
    rw [List.length_cons, List.take_succ_cons, List.sum_cons, List.sum_cons]
    omega

/-- The subperm version of `sublist_sum_le_take`. -/
theorem subperm_sum_le_take (ys xs : List Nat) (h : List.Subperm ys xs)
    (hsort : List.Sorted (fun a b : Nat => b ≤ a) xs) :
    ys.sum ≤ (xs.take ys.length).sum := by
  obtain ⟨zs, hperm, hsub⟩ := h
  have h1 : zs.sum = ys.sum := hperm.sum_eq
  have h2 : zs.length = ys.length := hperm.length_eq
  have h3 := sublist_sum_le_take zs xs hsub hsort
  rw [h1, h2] at h3
  exact h3

/-- In a power table sorted by descending power, a larger index never has
larger power. -/
theorem powAt_anti (pt : PowerTable) (hsort : List.Sorted powerEntryLE pt.Entries)
    {i j : Nat} (hij : i < j) (hj : j < pt.Entries.length) :
    powAt pt j ≤ powAt pt i := by
  have hi : i < pt.Entries.length := lt_trans hij hj
  have hpe : powerEntryLE (pt.Entries.get ⟨i, hi⟩) (pt.Entries.get ⟨j, hj⟩) := by
    have hpair : List.Pairwise powerEntryLE pt.Entries := hsort
    rw [List.pairwise_iff_get] at hpair
    exact hpair _ _ hij
  have h1 : powAt pt i = pt.Entries[i].Power := by
    unfold powAt
    rw [List.getElem?_eq_getElem hi]
  have h2 : powAt pt j = pt.Entries[j].Power := by
    unfold powAt
    rw [List.getElem?_eq_getElem hj]
  simp only [List.get_eq_getElem] at hpe
  rw [h1, h2]
  rcases hpe with h | ⟨h, _⟩
  · exact le_of_lt h
  · exact le_of_eq h.symm

/-- No power portion of zero is a strong quorum. -/
theorem hasStrongQuorum_zero (T : Nat) : hasStrongQuorum 0 T = false := by
  have h1 : hasStrongQuorum 0 T = decide (2 * T / 3 < 0) := rfl
  rw [h1]
  simp

/-- Core of C3: on a descending-power table with consistent lookup, the
signer walk of `FindStrongQuorumFor` succeeds and returns a minimal,
ascending set of supporter indices whose power is a strong quorum. -/
theorem fsq_core (pt : PowerTable) (sigs : List (ActorID × Option Bytes))
    (hsort : List.Sorted powerEntryLE pt.Entries)
    (hlki : ∀ a i, lookupA pt.Lookup a = some i →
      ∃ h : i < pt.Entries.length, pt.Entries[i].ID = a)
    (hnds : (sigs.map Prod.fst).Nodup)
    (hisome : ∀ a ∈ sigs.map Prod.fst, (lookupA pt.Lookup a).isSome = true)
    (hstrong : hasStrongQuorum
      (((sigs.map (fun p => (lookupA pt.Lookup p.1).getD 0)).map (powAt pt)).sum)
      pt.Total = true) :
    ∃ n qr,
      fsqWalk pt sigs (List.insertionSort (fun a b : Nat => a ≤ b)
        (sigs.map (fun p => (lookupA pt.Lookup p.1).getD 0))) [] 0 [] [] = .ok (some qr) ∧
      qr.Signers.length = n ∧ 0 < n ∧
      List.Sorted (fun a b : Nat => a < b) qr.Signers ∧
      (∀ i ∈ qr.Signers, i ∈ sigs.map (fun p => (lookupA pt.Lookup p.1).getD 0)) ∧
      hasStrongQuorum ((qr.Signers.map (powAt pt)).sum) pt.Total = true ∧
      (∀ S : List Nat, S.Nodup →
        (∀ i ∈ S, i ∈ sigs.map (fun p => (lookupA pt.Lookup p.1).getD 0)) →
        hasStrongQuorum ((S.map (powAt pt)).sum) pt.Total = true →
        n ≤ S.length) := by
  set idxs := sigs.map (fun p => (lookupA pt.Lookup p.1).getD 0) with hidxs
  set srt := List.insertionSort (fun a b : Nat => a ≤ b) idxs with hsrt
  have hperm : srt.Perm idxs := List.perm_insertionSort _ _
  have hvalI : ∀ i ∈ idxs, i < pt.Entries.length := by
    intro i hi
    rw [hidxs, List.mem_map] at hi
    obtain ⟨p, hp, hip⟩ := hi
    have hsome := hisome p.1 (List.mem_map_of_mem _ hp)
    rcases hlk : lookupA pt.Lookup p.1 with _ | iv
    · rw [hlk] at hsome
      cases hsome
    · obtain ⟨hlt, _⟩ := hlki p.1 iv hlk
      rw [hlk] at hip
      simp only [Option.getD_some] at hip
      rw [← hip]
      exact hlt
  have hndI : idxs.Nodup := by
    rw [hidxs]
    rw [show (sigs.map (fun p => (lookupA pt.Lookup p.1).getD 0))
        = (sigs.map Prod.fst).map (fun a => (lookupA pt.Lookup a).getD 0) from by
      rw [List.map_map]
      rfl]
    apply List.Nodup.map_on ?_ hnds
    intro a ha b hb hab
    have hsa := hisome a ha
    have hsb := hisome b hb
    rcases hla : lookupA pt.Lookup a with _ | ia
    · rw [hla] at hsa; cases hsa
    rcases hlb : lookupA pt.Lookup b with _ | ib
    · rw [hlb] at hsb; cases hsb
    rw [hla, hlb] at hab
    simp only [Option.getD_some] at hab
    obtain ⟨hia, hida⟩ := hlki a ia hla
    obtain ⟨hib, hidb⟩ := hlki b ib hlb
    rw [← hida, ← hidb]
    subst hab
    rfl
  have hvalS : ∀ i ∈ srt, i < pt.Entries.length :=
    fun i hi => hvalI i (hperm.mem_iff.mp hi)
  have hndS : srt.Nodup := (hperm.nodup_iff).mpr hndI
  have hsortedLE : List.Sorted (fun a b : Nat => a ≤ b) srt := List.sorted_insertionSort _ _
  have hsortedLT : List.Sorted (fun a b : Nat => a < b) srt := hsortedLE.lt_of_le hndS
  have hsum : (srt.map (powAt pt)).sum = (idxs.map (powAt pt)).sum := (hperm.map _).sum_eq
  have hstrongS : hasStrongQuorum (0 + (srt.map (powAt pt)).sum) pt.Total = true := by
    rw [Nat.zero_add, hsum]
    exact hstrong
  obtain ⟨walkA, _⟩ := fsqWalk_run pt sigs srt [] 0 [] [] hvalS (hasStrongQuorum_zero _)
  obtain ⟨n, qr, hn0, hnle, hrun, hsig, hstop, hbefore⟩ := walkA hstrongS
  have hpows : List.Pairwise (fun a b : Nat => b ≤ a) (srt.map (powAt pt)) := by
    rw [List.pairwise_map]
    refine List.Pairwise.imp_of_mem ?_
      (show List.Pairwise (fun a b : Nat => a < b) srt from hsortedLT)
    intro a b ha hb hab
    exact powAt_anti pt hsort hab (hvalS b hb)
  refine ⟨n, qr, hrun, ?_, hn0, ?_, ?_, ?_, ?_⟩
  · rw [hsig, List.nil_append, List.length_take]
    omega
  · rw [hsig, List.nil_append]
    exact List.Pairwise.sublist (List.take_sublist _ _) hsortedLT
  · intro i hi
    rw [hsig, List.nil_append] at hi
    exact hperm.mem_iff.mp (List.take_subset _ _ hi)
  · rw [hsig, List.nil_append]
    have h := hstop
    rw [Nat.zero_add] at h
    exact h
  · intro S hSnd hSsub hSstrong
    by_contra hlt
    push_neg at hlt
    have hSsub2 : S ⊆ srt := fun i hiS => hperm.mem_iff.mpr (hSsub i hiS)
    have hsp : List.Subperm S srt := hSnd.subperm hSsub2
    have hspm : List.Subperm (S.map (powAt pt)) (srt.map (powAt pt)) := by
      obtain ⟨zs, hp, hs⟩ := hsp
      exact ⟨zs.map (powAt pt), hp.map _, hs.map _⟩
    have hle1 : (S.map (powAt pt)).sum ≤
        ((srt.map (powAt pt)).take (S.map (powAt pt)).length).sum :=
      subperm_sum_le_take _ _ hspm hpows
    rw [List.length_map] at hle1
    rw [show ((srt.map (powAt pt)).take S.length) = ((srt.take S.length).map (powAt pt)) from by
      rw [List.map_take]] at hle1
    have hbef := hbefore S.length hlt
    rw [Nat.zero_add] at hbef
    have hs2 := hasStrongQuorum_mono hle1 hSstrong
    rw [hs2] at hbef
    exact absurd hbef (by decide)

/-- C3: over a power table whose entries are sorted by descending power (ties
by ascending id) with a consistent id-to-index lookup, and a coherent support
record, `FindStrongQuorumFor` returns not-ok for a key without strong quorum;
for a key with strong quorum it returns ok with a subset of the recorded
supporters' power-table indices, in ascending order, whose summed power is a
strong quorum, of minimal cardinality among all such subsets. -/
theorem claim_C3 (q : quorumState) (key : ChainKey)
    (hsort : List.Sorted powerEntryLE q.powerTable.Entries)
    (hlki : ∀ a i, lookupA q.powerTable.Lookup a = some i →
      ∃ h : i < q.powerTable.Entries.length, q.powerTable.Entries[i].ID = a)
    (hcoh : ∀ cs, lookupA q.chainSupport key = some cs →
      (cs.signatures.map Prod.fst).Nodup ∧
      (∀ a ∈ cs.signatures.map Prod.fst, (lookupA q.powerTable.Lookup a).isSome = true) ∧
      cs.power = ((cs.signatures.map (fun p => (lookupA q.powerTable.Lookup p.1).getD 0)).map
        (powAt q.powerTable)).sum ∧
      cs.hasStrongQuorum = hasStrongQuorum cs.power q.powerTable.Total) :
    (quorumState.HasStrongQuorumFor q key = false →
      quorumState.FindStrongQuorumFor q key = .ok (⟨[], [], []⟩, false)) ∧
    (quorumState.HasStrongQuorumFor q key = true →
      ∃ cs qr, lookupA q.chainSupport key = some cs ∧
        quorumState.FindStrongQuorumFor q key = .ok (qr, true) ∧
        List.Sorted (fun a b : Nat => a < b) qr.Signers ∧
        (∀ i ∈ qr.Signers,
          i ∈ cs.signatures.map (fun p => (lookupA q.powerTable.Lookup p.1).getD 0)) ∧
        hasStrongQuorum ((qr.Signers.map (powAt q.powerTable)).sum) q.powerTable.Total = true ∧
        (∀ S : List Nat, S.Nodup →
          (∀ i ∈ S, i ∈ cs.signatures.map (fun p => (lookupA q.powerTable.Lookup p.1).getD 0)) →
          hasStrongQuorum ((S.map (powAt q.powerTable)).sum) q.powerTable.Total = true →
          qr.Signers.length ≤ S.length)) := by
  constructor
  · intro hfalse
    rcases hcs : lookupA q.chainSupport key with _ | cs
    · unfold quorumState.FindStrongQuorumFor
      rw [hcs]
    · have hflag : cs.hasStrongQuorum = false := by
        have h := hfalse
        unfold quorumState.HasStrongQuorumFor at h
        rw [hcs] at h
        exact h
      unfold quorumState.FindStrongQuorumFor
      rw [hcs]
      dsimp only
      rw [if_pos (by simp [hflag])]
  · intro htrue
    rcases hcs : lookupA q.chainSupport key with _ | cs
    · exfalso
      unfold quorumState.HasStrongQuorumFor at htrue
      rw [hcs] at htrue
      exact absurd htrue (by decide)
    · obtain ⟨hnds, hisome, hpower, hflagdef⟩ := hcoh cs hcs
      have hflag : cs.hasStrongQuorum = true := by
        unfold quorumState.HasStrongQuorumFor at htrue
        rw [hcs] at htrue
        exact htrue
      have hstrongP : hasStrongQuorum
          (((cs.signatures.map (fun p => (lookupA q.powerTable.Lookup p.1).getD 0)).map
            (powAt q.powerTable)).sum) q.powerTable.Total = true := by
        rw [← hpower, ← hflagdef]
        exact hflag
      obtain ⟨n, qr, hrun, hlen, hn0, hsorted, hmem, hstrongQ, hmin⟩ :=
        fsq_core q.powerTable cs.signatures hsort hlki hnds hisome hstrongP
      refine ⟨cs, qr, rfl, ?_, hsorted, hmem, hstrongQ, ?_⟩
      · unfold quorumState.FindStrongQuorumFor
        rw [hcs]
        dsimp only
        rw [if_neg (by simp [hflag])]
        rw [hrun]
      · intro S h1 h2 h3
        rw [← hlen] at hmin
        exact hmin S h1 h2 h3

/-- Witness for `claim_C3` at a concrete coherent state with strong quorum. -/
theorem claim_C3_witness :
    ∃ cs qr, lookupA exQS3.chainSupport [[10]] = some cs ∧
      quorumState.FindStrongQuorumFor exQS3 [[10]] = .ok (qr, true) ∧
      List.Sorted (fun a b : Nat => a < b) qr.Signers ∧
      (∀ i ∈ qr.Signers,
        i ∈ cs.signatures.map (fun p => (lookupA exQS3.powerTable.Lookup p.1).getD 0)) ∧
      hasStrongQuorum ((qr.Signers.map (powAt exQS3.powerTable)).sum)
        exQS3.powerTable.Total = true ∧
      (∀ S : List Nat, S.Nodup →
        (∀ i ∈ S, i ∈ cs.signatures.map (fun p => (lookupA exQS3.powerTable.Lookup p.1).getD 0)) →
        hasStrongQuorum ((S.map (powAt exQS3.powerTable)).sum) exQS3.powerTable.Total = true →
        qr.Signers.length ≤ S.length) := by
  have hlki : ∀ a i, lookupA exQS3.powerTable.Lookup a = some i →
      ∃ h : i < exQS3.powerTable.Entries.length, exQS3.powerTable.Entries[i].ID = a := by
    intro a i h
    by_cases h1 : a = 1
    · subst h1
      have h0 : i = 0 := by
        have h2 : lookupA exQS3.powerTable.Lookup 1 = some 0 := by decide
        rw [h2] at h
        injection h with h
        exact h.symm
      subst h0
      exact ⟨by decide, by decide⟩
    · by_cases h2 : a = 2
      · subst h2
        have h0 : i = 1 := by
          have h3 : lookupA exQS3.powerTable.Lookup 2 = some 1 := by decide
          rw [h3] at h
          injection h with h
          exact h.symm
        subst h0
        exact ⟨by decide, by decide⟩
      · exfalso
        have h3 : lookupA exQS3.powerTable.Lookup a = none := by
          show lookupA [(1, 0), (2, 1)] a = none
          unfold lookupA
          rw [if_neg (fun he => h1 he.symm)]
          unfold lookupA
          rw [if_neg (fun he => h2 he.symm)]
          rfl
        rw [h3] at h
        cases h
  have hcoh : ∀ cs, lookupA exQS3.chainSupport [[10]] = some cs →
      (cs.signatures.map Prod.fst).Nodup ∧
      (∀ a ∈ cs.signatures.map Prod.fst, (lookupA exQS3.powerTable.Lookup a).isSome = true) ∧
      cs.power = ((cs.signatures.map
        (fun p => (lookupA exQS3.powerTable.Lookup p.1).getD 0)).map
        (powAt exQS3.powerTable)).sum ∧
      cs.hasStrongQuorum = hasStrongQuorum cs.power exQS3.powerTable.Total := by
    intro cs h
    have he : cs = exCS3 := by
      have h2 : lookupA exQS3.chainSupport [[10]] = some exCS3 := by decide
      rw [h2] at h
      injection h with h
      exact h.symm
    subst he
    exact ⟨by decide, by decide, by decide, by decide⟩
  exact (claim_C3 exQS3 [[10]] (by decide) hlki hcoh).2 (by decide)

/-- C2: for a message passing every pre-justification check (instance,
sender, value, base, phase constraints, signature), the justification
exemption is exactly {QUALITY, round-0 PREPARE, COMMIT-for-bottom}: an
exempt message without justification is accepted, a non-exempt message
without justification is rejected, and an exempt message carrying a
justification is rejected. -/
theorem claim_C2 (host : HostModel) (ctx : VCtx) (msg : GMessage)
    (hpre : checkPre host ctx msg = .ok ()) :
    ((needsJustification msg = false) ↔
      (msg.Vote.Step = QUALITY_PHASE ∨
        (msg.Vote.Step = PREPARE_PHASE ∧ msg.Vote.Round = 0) ∨
        (msg.Vote.Step = COMMIT_PHASE ∧ ECChain.IsZero msg.Vote.Value = true))) ∧
    (needsJustification msg = false → msg.Justification = none →
      validateMessage host ctx msg = .ok ()) ∧
    (needsJustification msg = true → msg.Justification = none →
      validateMessage host ctx msg = .err (.str "message has no justification")) ∧
    (needsJustification msg = false → ∀ j, msg.Justification = some j →
      validateMessage host ctx msg = .err (.str "message has unexpected justification")) := by
  refine ⟨?_, ?_, ?_, ?_⟩
  · simp only [needsJustification]
    simp
    tauto
  · intro hn hj
    simp [validateMessage, hpre, checkJust, hn, hj]
  · intro hn hj
    simp [validateMessage, hpre, checkJust, hn, hj]
  · intro hn j hj
    simp [validateMessage, hpre, checkJust, hn, hj]

/-- Witness for `claim_C2` at concrete messages: the exempt QUALITY message
is accepted, the same message with a justification attached is rejected, and
a COMMIT-for-nonbottom message without justification is rejected. -/
theorem claim_C2_witness :
    validateMessage exHost exVCtx exMsgQ = .ok () ∧
    validateMessage exHost exVCtx exMsgQJ = .err (.str "message has unexpected justification") ∧
    validateMessage exHost exVCtx exMsgC = .err (.str "message has no justification") := by
  refine ⟨(claim_C2 exHost exVCtx exMsgQ (by rfl)).2.1 (by rfl) rfl,
    (claim_C2 exHost exVCtx exMsgQJ (by rfl)).2.2.2 (by rfl) exJustC2 rfl,
    (claim_C2 exHost exVCtx exMsgC (by rfl)).2.2.1 (by rfl) rfl⟩

/-- C4: in the PREPARE phase of round `r` (with the round state present, a
non-bottom proposal, and a host whose signing and aggregation succeed), a
strong quorum for the proposal's key moves the instance to COMMIT with
value = proposal and a broadcast carrying a PREPARE justification for the
proposal at round `r`; otherwise, on timeout with messages from a strong
quorum of senders, it moves to COMMIT with value = bottom and a broadcast
carrying no justification; otherwise the state is unchanged. -/
theorem claim_C4 (cfg : PCfg) (host : HostModel) (i : Instance) (rs : RoundState)
    (hphase : i.phase = PREPARE_PHASE)
    (hrs : lookupA i.rounds i.round = some rs)
    (hprop : ECChain.IsZero i.proposal = false)
    (hsign : ∀ pk m, ∃ s, host.sign pk m = .ok s)
    (hfsq : quorumState.HasStrongQuorumFor rs.prepared (ECChain.Key i.proposal) = true →
      ∃ qr, quorumState.FindStrongQuorumFor rs.prepared (ECChain.Key i.proposal) = .ok (qr, true))
    (hagg : ∀ pks sigs, ∃ b, host.aggregate pks sigs = .ok b) :
    (quorumState.HasStrongQuorumFor rs.prepared (ECChain.Key i.proposal) = true →
      (Instance.tryPrepare cfg host i).2.2 = .ok () ∧
      (Instance.tryPrepare cfg host i).1.phase = COMMIT_PHASE ∧
      (Instance.tryPrepare cfg host i).1.value = i.proposal ∧
      (Instance.tryPrepare cfg host i).1.round = i.round ∧
      (Instance.tryPrepare cfg host i).2.1.broadcasts.length = 1 ∧
      ∀ msg ∈ (Instance.tryPrepare cfg host i).2.1.broadcasts,
        msg.Vote.Step = COMMIT_PHASE ∧ msg.Vote.Round = i.round ∧
        msg.Vote.Value = i.proposal ∧
        msg.Justification.map (fun j => (j.Vote.Step, j.Vote.Round, j.Vote.Value)) =
          some (PREPARE_PHASE, i.round, i.proposal)) ∧
    (quorumState.HasStrongQuorumFor rs.prepared (ECChain.Key i.proposal) = false →
      (atOrAfter host.now i.phaseTimeout &&
        quorumState.ReceivedFromStrongQuorum rs.prepared) = true →
      (Instance.tryPrepare cfg host i).2.2 = .ok () ∧
      (Instance.tryPrepare cfg host i).1.phase = COMMIT_PHASE ∧
      (Instance.tryPrepare cfg host i).1.value = [] ∧
      (Instance.tryPrepare cfg host i).1.round = i.round ∧
      (Instance.tryPrepare cfg host i).2.1.broadcasts.length = 1 ∧
      ∀ msg ∈ (Instance.tryPrepare cfg host i).2.1.broadcasts,
        msg.Vote.Step = COMMIT_PHASE ∧ msg.Vote.Round = i.round ∧
        msg.Vote.Value = ([] : ECChain) ∧ msg.Justification = none) ∧
    (quorumState.HasStrongQuorumFor rs.prepared (ECChain.Key i.proposal) = false →
      (atOrAfter host.now i.phaseTimeout &&
        quorumState.ReceivedFromStrongQuorum rs.prepared) = false →
      Instance.tryPrepare cfg host i = (i, Outputs.empty, .ok ())) := by
  refine ⟨?_, ?_, ?_⟩
  · intro hq
    obtain ⟨qr, hqr⟩ := hfsq hq
    obtain ⟨b, hb⟩ := hagg qr.PubKeys (qr.Signatures.map (fun s => s.getD []))
    obtain ⟨sg, hsg⟩ := hsign ((i.powerTable.Get cfg.id).elim [] (fun p1 => p1.2))
      (Payload.MarshalForSigning
        { Instance := i.instanceID, Round := i.round, Step := COMMIT_PHASE, Value := i.proposal }
        host.networkName)
    refine ⟨?_, ?_, ?_, ?_, ?_, ?_⟩ <;>
      simp [Instance.tryPrepare, Instance.roundStateL, hrs, hphase, hq,
        Instance.beginCommit, hprop, Instance.buildJustification, QuorumResult.Aggregate,
        hqr, hb, Instance.broadcast, Instance.sign, hsg, Outputs.append, Outputs.empty,
        QuorumResult.SignersBitfield]
  · intro hq ht
    obtain ⟨sg, hsg⟩ := hsign ((i.powerTable.Get cfg.id).elim [] (fun p1 => p1.2))
      (Payload.MarshalForSigning
        { Instance := i.instanceID, Round := i.round, Step := COMMIT_PHASE, Value := [] }
        host.networkName)
    refine ⟨?_, ?_, ?_, ?_, ?_, ?_⟩ <;>
      simp [Instance.tryPrepare, Instance.roundStateL, hrs, hphase, hq, ht,
        Instance.beginCommit, ECChain.IsZero, Instance.broadcast, Instance.sign, hsg,
        Outputs.append, Outputs.empty]
  · intro hq ht
    simp [Instance.tryPrepare, Instance.roundStateL, hrs, hphase, hq, ht]

/-- Witness for `claim_C4`: at a concrete PREPARE-phase instance whose
tracker holds a strong quorum for the proposal, `tryPrepare` moves to COMMIT
with the proposal as value and broadcasts a justified COMMIT. -/
theorem claim_C4_witness :
    (Instance.tryPrepare exCfg exHost exInst4).2.2 = .ok () ∧
    (Instance.tryPrepare exCfg exHost exInst4).1.phase = COMMIT_PHASE ∧
    (Instance.tryPrepare exCfg exHost exInst4).1.value = exInst4.proposal ∧
    (Instance.tryPrepare exCfg exHost exInst4).1.round = exInst4.round ∧
    (Instance.tryPrepare exCfg exHost exInst4).2.1.broadcasts.length = 1 ∧
    ∀ msg ∈ (Instance.tryPrepare exCfg exHost exInst4).2.1.broadcasts,
      msg.Vote.Step = COMMIT_PHASE ∧ msg.Vote.Round = exInst4.round ∧
      msg.Vote.Value = exInst4.proposal ∧
      msg.Justification.map (fun j => (j.Vote.Step, j.Vote.Round, j.Vote.Value)) =
        some (PREPARE_PHASE, exInst4.round, exInst4.proposal) :=
  (claim_C4 exCfg exHost exInst4 exRS4 rfl (by decide) rfl
    (fun _ _ => ⟨[9], rfl⟩)
    (fun _ => ⟨⟨[0, 1], [[1], [2]], [some [21], some [22]]⟩, by decide⟩)
    (fun _ _ => ⟨[8], rfl⟩)).1 (by decide)

/-- `handleDecision` never fails: it either records a termination or is a
no-op. -/
theorem handleDecision_ok (host : HostModel) (p : Participant) :
    ∃ p2 o2, Participant.handleDecision host p = (p2, o2, .ok ()) := by
  unfold Participant.handleDecision
  by_cases ht : Participant.terminatedP p = true
  · rw [if_pos ht]
    rcases hg : p.gpbft with _ | g
    · exact ⟨p, Outputs.empty, rfl⟩
    · exact ⟨_, _, rfl⟩
  · rw [if_neg ht]
    exact ⟨p, Outputs.empty, rfl⟩

/-- C9: `messageQueue.Add` leaves the queue unchanged on a duplicate (same
sender, round and step already queued for the message's instance); drops
the message (no sender's list changes) when its round exceeds the lookahead
bound and it is spammable; otherwise appends it to its sender's list for
its instance and changes no other list. -/
theorem claim_C9 (q : messageQueue) (msg : GMessage) :
    (∀ iq, lookupA q.messages msg.Vote.Instance = some iq →
      (mqList q msg.Vote.Instance msg.Sender).any
        (fun m => m.Vote.Round = msg.Vote.Round && m.Vote.Step = msg.Vote.Step) = true →
      messageQueue.Add msg q = q) ∧
    ((msg.Vote.Round > q.maxRound && isSpammable msg) = true →
      ∀ i2 s2, mqList (messageQueue.Add msg q) i2 s2 = mqList q i2 s2) ∧
    ((msg.Vote.Round > q.maxRound && isSpammable msg) = false →
      (mqList q msg.Vote.Instance msg.Sender).any
        (fun m => m.Vote.Round = msg.Vote.Round && m.Vote.Step = msg.Vote.Step) = false →
      mqList (messageQueue.Add msg q) msg.Vote.Instance msg.Sender =
        mqList q msg.Vote.Instance msg.Sender ++ [msg] ∧
      ∀ i2 s2, ¬ (i2 = msg.Vote.Instance ∧ s2 = msg.Sender) →
        mqList (messageQueue.Add msg q) i2 s2 = mqList q i2 s2) := by
  refine ⟨?_, ?_, ?_⟩
  · intro iq hiq hdup
    unfold mqList at hdup
    rw [hiq] at hdup
    simp only [Option.getD_some] at hdup
    unfold messageQueue.Add
    rw [hiq]
    dsimp only
    by_cases hs1 : (msg.Vote.Round > q.maxRound && isSpammable msg) = true
    · rw [if_pos hs1]
    · rw [if_neg hs1, if_pos hdup]
  · intro hs i2 s2
    rcases hiq : lookupA q.messages msg.Vote.Instance with _ | iq
    · unfold messageQueue.Add
      rw [hiq]
      dsimp only
      rw [if_pos hs]
      unfold mqList
      by_cases hi : i2 = msg.Vote.Instance
      · subst hi
        rw [lookupA_updateA_self, hiq]
        simp only [Option.getD_some, Option.getD_none]
      · rw [lookupA_updateA_ne q.messages msg.Vote.Instance i2 [] hi]
    · unfold messageQueue.Add
      rw [hiq]
      dsimp only
      rw [if_pos hs]
  · intro hs hdup
    have hsn : ¬ ((msg.Vote.Round > q.maxRound && isSpammable msg) = true) := by
      rw [hs]
      simp
    unfold mqList at hdup
    rcases hiq : lookupA q.messages msg.Vote.Instance with _ | iq
    · rw [hiq] at hdup
      simp only [Option.getD_none] at hdup
      refine ⟨?_, ?_⟩
      · unfold messageQueue.Add
        rw [hiq]
        dsimp only
        rw [if_neg hsn]
        simp only [lookupA, Option.getD_none, List.any_nil]
        rw [if_neg (by simp)]
        unfold mqList
        rw [lookupA_updateA_self]
        simp only [Option.getD_some]
        rw [lookupA_updateA_self, hiq]
        simp only [Option.getD_some, Option.getD_none, lookupA, Option.getD, List.nil_append]
      · intro i2 s2 hne
        unfold messageQueue.Add
        rw [hiq]
        dsimp only
        rw [if_neg hsn]
        simp only [lookupA, Option.getD_none, List.any_nil]
        rw [if_neg (by simp)]
        unfold mqList
        by_cases hi : i2 = msg.Vote.Instance
        · subst hi
          have hs2 : s2 ≠ msg.Sender := fun he => hne ⟨rfl, he⟩
          rw [lookupA_updateA_self, hiq]
          simp only [Option.getD_some, Option.getD_none]
          rw [lookupA_updateA_ne _ _ _ _ hs2]
        · rw [lookupA_updateA_ne _ _ _ _ hi, lookupA_updateA_ne _ _ _ _ hi]
    · rw [hiq] at hdup
      simp only [Option.getD_some] at hdup
      have hdn : ¬ ((((lookupA iq msg.Sender).getD []).any
          (fun m => m.Vote.Round = msg.Vote.Round && m.Vote.Step = msg.Vote.Step)) = true) := by
        rw [hdup]
        simp
      refine ⟨?_, ?_⟩
      · unfold messageQueue.Add
        rw [hiq]
        dsimp only
        rw [if_neg hsn, if_neg hdn]
        unfold mqList
        rw [lookupA_updateA_self]
        simp only [Option.getD_some]
        rw [lookupA_updateA_self, hiq]
        simp only [Option.getD_some]
      · intro i2 s2 hne
        unfold messageQueue.Add
        rw [hiq]
        dsimp only
        rw [if_neg hsn, if_neg hdn]
        unfold mqList
        by_cases hi : i2 = msg.Vote.Instance
        · subst hi
          have hs2 : s2 ≠ msg.Sender := fun he => hne ⟨rfl, he⟩
          rw [lookupA_updateA_self, hiq]
          simp only [Option.getD_some]
          rw [lookupA_updateA_ne _ _ _ _ hs2]
        · rw [lookupA_updateA_ne _ _ _ _ hi]

/-- Witness for `claim_C9`: a duplicate leaves the concrete queue unchanged,
a fresh in-bound message is appended to its sender's list, and an
unjustified beyond-lookahead message changes no sender's list. -/
theorem claim_C9_witness :
    messageQueue.Add exMsgQ5 exMq9 = exMq9 ∧
    mqList (messageQueue.Add exMsg9b exMq9) 5 1 = mqList exMq9 5 1 ++ [exMsg9b] ∧
    (∀ i2 s2, mqList (messageQueue.Add exMsg9spam exMq9) i2 s2 = mqList exMq9 i2 s2) := by
  refine ⟨(claim_C9 exMq9 exMsgQ5).1 [(1, [exMsgQ5])] (by decide) (by decide),
    ((claim_C9 exMq9 exMsg9b).2.2 (by decide) (by decide)).1,
    fun i2 s2 => (claim_C9 exMq9 exMsg9spam).2.1 (by decide) i2 s2⟩

/-- C8: a message for an instance strictly below the participant's current
instance is rejected by `Participant.ValidateMessage` with an error wrapping
`ErrValidationTooOld`, before any committee fetch and with the participant
unchanged, and likewise rejected by `Participant.ReceiveMessage` without
touching the instance or the queue; a message for the current or a future
instance is never rejected with the too-old wrap. -/
theorem claim_C8 (cfg : PCfg) (host : HostModel) (msg : GMessage) (p : Participant) :
    (msg.Vote.Instance < p.currentInstance →
      Participant.ValidateMessage host msg p =
        (p, Outputs.empty, .err (.wrap "message for past instance" .tooOld)) ∧
      Participant.ReceiveMessage cfg host msg p =
        (p, Outputs.empty, .err (.wrap "message for past instance" .tooOld)) ∧
      GErr.is (.wrap "message for past instance" .tooOld) .tooOld = true) ∧
    (¬ (msg.Vote.Instance < p.currentInstance) →
      (∀ w, (Participant.ValidateMessage host msg p).2.2 ≠ .err (.wrap w .tooOld)) ∧
      (∀ w, (Participant.ReceiveMessage cfg host msg p).2.2 ≠ .err (.wrap w .tooOld))) := by
  constructor
  · intro hlt
    refine ⟨?_, ?_, by simp [GErr.is]⟩
    · unfold Participant.ValidateMessage recoverWrap Participant.validateInner
      rw [if_pos hlt]
    · unfold Participant.ReceiveMessage recoverWrap Participant.receiveInnerP
      rw [if_pos hlt]
  · intro hge
    constructor
    · intro w
      unfold Participant.ValidateMessage recoverWrap Participant.validateInner
      rw [if_neg hge]
      rcases hgc : Participant.getCommittee host msg.Vote.Instance p with ⟨p1, o1, rc⟩
      rcases rc with c | e | m
      · obtain ⟨power, beacon⟩ := c
        rcases hv : ValidateMessageTL power beacon host msg with v | e | m <;> simp [hv]
      · simp
      · simp
    · intro w
      unfold Participant.ReceiveMessage recoverWrap Participant.receiveInnerP
      rw [if_neg hge]
      rcases hg : p.gpbft with _ | g
      · simp
      · dsimp only
        by_cases hcur : msg.Vote.Instance = p.currentInstance
        · rw [if_pos hcur]
          rcases hr : Instance.Receive cfg host cfg.fuel msg g with ⟨g1, o1, rr⟩
          rcases rr with a | e | m
          · dsimp only
            obtain ⟨p2, o2, hd⟩ := handleDecision_ok host { p with gpbft := some g1 }
            rw [hd]
            simp
          · simp
          · simp
        · rw [if_neg hcur]
          simp

/-- Witness for `claim_C8`: at a concrete participant, a past-instance
message is rejected too-old by both entry points with the participant
unchanged, and a future-instance message is not rejected with the too-old
wrap. -/
theorem claim_C8_witness :
    Participant.ValidateMessage exHost exMsgOld exPart8 =
      (exPart8, Outputs.empty, .err (.wrap "message for past instance" .tooOld)) ∧
    Participant.ReceiveMessage exCfg exHost exMsgOld exPart8 =
      (exPart8, Outputs.empty, .err (.wrap "message for past instance" .tooOld)) ∧
    (∀ w, (Participant.ValidateMessage exHost exMsgFut exPart8).2.2 ≠
      .err (.wrap w .tooOld)) := by
  obtain ⟨h1, h2, _⟩ := (claim_C8 exCfg exHost exMsgOld exPart8).1 (by decide)
  exact ⟨h1, h2, fun w => ((claim_C8 exCfg exHost exMsgFut exPart8).2 (by decide)).1 w⟩

/-- `recoverWrap` keeps the body's state and effects, never lets a panic
escape, and converts a panic into the corresponding `PanicError`. -/
theorem recoverWrap_state {σ α : Type} (m : GoM σ α) (s : σ) :
    (recoverWrap m s).1 = (m s).1 ∧ (recoverWrap m s).2.1 = (m s).2.1 ∧
    (∀ msg, (recoverWrap m s).2.2 ≠ .panic msg) ∧
    (∀ msg, (m s).2.2 = .panic msg → (recoverWrap m s).2.2 = .err (.panicErr msg)) := by
  rcases h : m s with ⟨s1, o, r⟩
  unfold recoverWrap
  rw [h]
  rcases r with a | e | m1 <;> simp

/-- C10: every public participant entry point (`Start`, `ValidateMessage`,
`ReceiveMessage`, `ReceiveAlarm`) returns its body's state and effects,
never propagates a panic, and returns a panic raised by its body to the
caller as the `PanicError` value. -/
theorem claim_C10 (cfg : PCfg) (host : HostModel) (msg : GMessage) (p : Participant) :
    ((Participant.Start cfg host p).1 = (Participant.beginInstance cfg host p).1 ∧
      (Participant.Start cfg host p).2.1 = (Participant.beginInstance cfg host p).2.1 ∧
      (∀ m, (Participant.Start cfg host p).2.2 ≠ .panic m) ∧
      (∀ m, (Participant.beginInstance cfg host p).2.2 = .panic m →
        (Participant.Start cfg host p).2.2 = .err (.panicErr m))) ∧
    ((Participant.ValidateMessage host msg p).1 = (Participant.validateInner host msg p).1 ∧
      (Participant.ValidateMessage host msg p).2.1 =
        (Participant.validateInner host msg p).2.1 ∧
      (∀ m, (Participant.ValidateMessage host msg p).2.2 ≠ .panic m) ∧
      (∀ m, (Participant.validateInner host msg p).2.2 = .panic m →
        (Participant.ValidateMessage host msg p).2.2 = .err (.panicErr m))) ∧
    ((Participant.ReceiveMessage cfg host msg p).1 =
        (Participant.receiveInnerP cfg host msg p).1 ∧
      (Participant.ReceiveMessage cfg host msg p).2.1 =
        (Participant.receiveInnerP cfg host msg p).2.1 ∧
      (∀ m, (Participant.ReceiveMessage cfg host msg p).2.2 ≠ .panic m) ∧
      (∀ m, (Participant.receiveInnerP cfg host msg p).2.2 = .panic m →
        (Participant.ReceiveMessage cfg host msg p).2.2 = .err (.panicErr m))) ∧
    ((Participant.ReceiveAlarm cfg host p).1 = (Participant.alarmInner cfg host p).1 ∧
      (Participant.ReceiveAlarm cfg host p).2.1 = (Participant.alarmInner cfg host p).2.1 ∧
      (∀ m, (Participant.ReceiveAlarm cfg host p).2.2 ≠ .panic m) ∧
      (∀ m, (Participant.alarmInner cfg host p).2.2 = .panic m →
        (Participant.ReceiveAlarm cfg host p).2.2 = .err (.panicErr m))) :=
  ⟨recoverWrap_state _ p, recoverWrap_state _ p, recoverWrap_state _ p,
    recoverWrap_state _ p⟩

/-- Witness for `claim_C10`: a concrete message whose processing panics in
the instance machine is returned by `ReceiveMessage` as a `PanicError`, and
no panic escapes. -/
theorem claim_C10_witness :
    (∀ m, (Participant.ReceiveMessage exCfg exHost exMsgPanic exPartP).2.2 ≠ .panic m) ∧
    (Participant.ReceiveMessage exCfg exHost exMsgPanic exPartP).2.2 =
      .err (.panicErr "nil sender power") := by
  have h := (claim_C10 exCfg exHost exMsgPanic exPartP).2.2.1
  exact ⟨h.2.2.1, h.2.2.2 "nil sender power" (by decide)⟩
